import Mathlib

/-!
# Verification of the fuzzy interpreter (src/interp)

Shallow embedding of `src/interp/interpreter.py` and the candidate-generation
layer of `src/interp/parser.py`.  Python runtime values are modelled by the
inductive `PyVal`; the interpreter's mutable fields (`_vars`, `_target`,
`_session`, `_apps`) form the `Env` structure; Python dictionaries holding
string keys are modelled as insertion-ordered association lists with the
update/delete semantics of `dict`.

External collaborators (the Lark parsing library, the terminal's display,
the file system) are modelled at their interface: terminal regexes are taken
verbatim from `GRAMMAR`, parse forests of concrete statements are derived by
hand from `GRAMMAR` and are marked as such, printing and file writes are not
observed.  Diagnostic message strings follow the source f-strings except that
quote characters inside messages are elided and interpolated listings (such
as `create`'s enumeration of registered app names) are dropped; failure
identity is tracked by the (message, priority) pair exactly as in
`InterpException`, and no claim depends on message spelling.
-/

namespace FuzzyInterp

/-- Python runtime values as far as the interpreter observes them:
strings, numbers (int/float results of `float(...)` on literal tokens,
modelled exactly as rationals), lists, sets, dicts, `None`, plain
non-primitive objects (by identity, as an index into a `World`),
the `Interpreter` object itself, and `InterpretableWrapper(v)` values. -/
inductive PyVal where
  | str (s : String)
  | num (q : Rat)
  | list (xs : List PyVal)
  | pset (xs : List PyVal)
  | dict (keys : List String) (vals : List PyVal)
  | none
  | obj (id : Nat)
  | interpRef
  | wrapper (v : PyVal)
  deriving Repr

mutual

/-- Structural equality test for `PyVal` (decidability helper). -/
def PyVal.beq : PyVal → PyVal → Bool
  | .str a, .str b => a = b
  | .num a, .num b => a = b
  | .list a, .list b => PyVal.beqL a b
  | .pset a, .pset b => PyVal.beqL a b
  | .dict ka va, .dict kb vb => ka = kb && PyVal.beqL va vb
  | .none, .none => true
  | .obj a, .obj b => a = b
  | .interpRef, .interpRef => true
  | .wrapper a, .wrapper b => PyVal.beq a b
  | _, _ => false

/-- Structural equality test for lists of `PyVal`. -/
def PyVal.beqL : List PyVal → List PyVal → Bool
  | [], [] => true
  | a :: as_, b :: bs => PyVal.beq a b && PyVal.beqL as_ bs
  | _, _ => false

end

mutual

theorem PyVal.eq_of_beq : ∀ {a b : PyVal}, PyVal.beq a b = true → a = b
  | .str a, .str b, h => by
      simpa using congrArg (PyVal.str ·) (by simpa [PyVal.beq] using h : a = b)
  | .num a, .num b, h => by
      have : a = b := by simpa [PyVal.beq] using h
      rw [this]
  | .list a, .list b, h => by
      have : a = b := PyVal.eqL_of_beqL (by simpa [PyVal.beq] using h)
      rw [this]
  | .pset a, .pset b, h => by
      have : a = b := PyVal.eqL_of_beqL (by simpa [PyVal.beq] using h)
      rw [this]
  | .dict ka va, .dict kb vb, h => by
      have h2 := by simpa [PyVal.beq] using h
      have : va = vb := PyVal.eqL_of_beqL h2.2
      rw [h2.1, this]
  | .none, .none, _ => rfl
  | .obj a, .obj b, h => by
      have : a = b := by simpa [PyVal.beq] using h
      rw [this]
  | .interpRef, .interpRef, _ => rfl
  | .wrapper a, .wrapper b, h => by
      have : a = b := PyVal.eq_of_beq (by simpa [PyVal.beq] using h)
      rw [this]

theorem PyVal.eqL_of_beqL : ∀ {xs ys : List PyVal}, PyVal.beqL xs ys = true → xs = ys
  | [], [], _ => rfl
  | a :: as_, b :: bs, h => by
      have h2 : PyVal.beq a b = true ∧ PyVal.beqL as_ bs = true := by
        simpa [PyVal.beqL] using h
      rw [PyVal.eq_of_beq h2.1, PyVal.eqL_of_beqL h2.2]

end

mutual

theorem PyVal.beq_refl : ∀ (a : PyVal), PyVal.beq a a = true
  | .str a => by simp [PyVal.beq]
  | .num a => by simp [PyVal.beq]
  | .list a => by simpa [PyVal.beq] using PyVal.beqL_refl a
  | .pset a => by simpa [PyVal.beq] using PyVal.beqL_refl a
  | .dict ka va => by simpa [PyVal.beq] using PyVal.beqL_refl va
  | .none => rfl
  | .obj a => by simp [PyVal.beq]
  | .interpRef => rfl
  | .wrapper a => by simpa [PyVal.beq] using PyVal.beq_refl a

theorem PyVal.beqL_refl : ∀ (xs : List PyVal), PyVal.beqL xs xs = true
  | [] => rfl
  | a :: as_ => by simpa [PyVal.beqL, PyVal.beq_refl a] using PyVal.beqL_refl as_

end

instance : DecidableEq PyVal := fun a b =>
  if h : PyVal.beq a b = true then isTrue (PyVal.eq_of_beq h)
  else isFalse (fun he => h (he ▸ PyVal.beq_refl a))

/-- `isinstance(v, Interpretable)`: the only `Interpretable` subclass in the
source is `InterpretableWrapper`. -/
def PyVal.isInterpretable : PyVal → Bool
  | .wrapper _ => true
  | _ => false

/-- Literal interpretations produced by `visit_literal` in `parser.py`:
`float(...)` for a `number` node, a `str` for `string`/`naked_string`
nodes, and an `Id(...)` reference for an `id` node. -/
inductive Lit where
  | num (q : Rat)
  | str (s : String)
  | id (name : String)
  deriving DecidableEq, Repr

/-- Python `dict` lookup on a string-keyed dict (association list). -/
def dictGet : List (String × PyVal) → String → Option PyVal
  | [], _ => Option.none
  | (k, v) :: rest, n => if k = n then some v else dictGet rest n

/-- Python `d[k] = v`: updates the existing entry in place, else appends
(insertion order preserved, as CPython dicts do). -/
def dictSet : List (String × PyVal) → String → PyVal → List (String × PyVal)
  | [], n, v => [(n, v)]
  | (k, v0) :: rest, n, v =>
      if k = n then (k, v) :: rest else (k, v0) :: dictSet rest n v

/-- Python `del d[k]`: removes the entry for `k` (keys are unique). -/
def dictDel : List (String × PyVal) → String → List (String × PyVal)
  | [], _ => []
  | (k, v0) :: rest, n =>
      if k = n then rest else (k, v0) :: dictDel rest n

theorem dictGet_not_mem (d : List (String × PyVal)) (n : String)
    (h : ∀ p ∈ d, p.1 ≠ n) : dictGet d n = Option.none := by
  induction d with
  | nil => rfl
  | cons hd tl ih =>
      obtain ⟨k, v⟩ := hd
      have h1 : k ≠ n := h (k, v) (List.mem_cons_self _ _)
      simp only [dictGet, if_neg h1]
      exact ih (fun p hp => h p (List.mem_cons_of_mem _ hp))

theorem dictGet_dictSet_same (d : List (String × PyVal)) (n : String) (v : PyVal) :
    dictGet (dictSet d n v) n = some v := by
  induction d with
  | nil => simp [dictSet, dictGet]
  | cons hd tl ih =>
      obtain ⟨k, v0⟩ := hd
      by_cases h : k = n
      · simp [dictSet, dictGet, h]
      · simp only [dictSet, if_neg h, dictGet, if_neg h]
        exact ih

theorem dictGet_dictDel_same (d : List (String × PyVal)) (n : String)
    (hnd : (d.map Prod.fst).Nodup) : dictGet (dictDel d n) n = Option.none := by
  induction d with
  | nil => rfl
  | cons hd tl ih =>
      obtain ⟨k, v⟩ := hd
      simp only [List.map_cons, List.nodup_cons] at hnd
      by_cases h : k = n
      · simp only [dictDel, if_pos h]
        subst h
        exact dictGet_not_mem tl k
          (fun p hp he => hnd.1 (List.mem_map.mpr ⟨p, hp, he⟩))
      · simp only [dictDel, if_neg h, dictGet, if_neg h]
        exact ih hnd.2

theorem dictGet_dictDel_other (d : List (String × PyVal)) (n m : String)
    (hne : m ≠ n) : dictGet (dictDel d n) m = dictGet d m := by
  induction d with
  | nil => rfl
  | cons hd tl ih =>
      obtain ⟨k, v⟩ := hd
      by_cases h : k = n
      · have hkm : ¬ k = m := fun he => hne (by rw [← he]; exact h)
        simp only [dictDel, if_pos h, dictGet, if_neg hkm]
      · by_cases h2 : k = m
        · simp only [dictDel, if_neg h, dictGet, if_pos h2]
        · simp only [dictDel, if_neg h, dictGet, if_neg h2]
          exact ih

/-! ## Lexical layer (`GRAMMAR` terminals and `visit_literal`)

Terminal definitions from `parser.py`'s `GRAMMAR`:
`UNQUOTED_STRING: /[a-z0-9.\/:\-]+/i`, `QUOTED_STRING` (quote-delimited),
`CNAME` and `SIGNED_NUMBER` imported from Lark's `common` grammar
(`SIGNED_NUMBER: ("+"|"-")? NUMBER`, `NUMBER: FLOAT | INT`,
`FLOAT: INT EXP | DECIMAL EXP?`, `DECIMAL: INT "." INT? | "." INT`,
`EXP: ("e"|"E") ("+"|"-")? INT`, `INT: DIGIT+`). -/

def isDigitCh (c : Char) : Bool := '0' ≤ c ∧ c ≤ '9'

def isLowerCh (c : Char) : Bool := 'a' ≤ c ∧ c ≤ 'z'

def isUpperCh (c : Char) : Bool := 'A' ≤ c ∧ c ≤ 'Z'

def isLetterCh (c : Char) : Bool := isLowerCh c || isUpperCh c

/-- Character class of `UNQUOTED_STRING` (`[a-z0-9.\/:\-]` with the `i` flag). -/
def isUnquotedCh (c : Char) : Bool :=
  isLetterCh c || isDigitCh c || c = '.' || c = '/' || c = ':' || c = '-'

/-- Lark `INT: DIGIT+`. -/
def intTok (cs : List Char) : Bool := !cs.isEmpty && cs.all isDigitCh

/-- All splits of a list into a prefix and a suffix, used to test
concatenation terminals. -/
def splitsOf (cs : List Char) : List (List Char × List Char) :=
  (List.range (cs.length + 1)).map (fun i => (cs.take i, cs.drop i))

/-- Lark `DECIMAL: INT "." INT? | "." INT`. -/
def decimalTok (cs : List Char) : Bool :=
  (splitsOf cs).any (fun ab =>
    match ab.2 with
    | '.' :: r => (intTok ab.1 && (r.isEmpty || intTok r)) || (ab.1.isEmpty && intTok r)
    | _ => false)

/-- Lark `_EXP: ("e"|"E") SIGNED_INT`. -/
def expTok (cs : List Char) : Bool :=
  match cs with
  | c :: rest =>
      (c = 'e' || c = 'E') &&
      (match rest with
       | s :: r => if s = '+' || s = '-' then intTok r else intTok rest
       | [] => false)
  | [] => false

/-- Lark `FLOAT: INT _EXP | DECIMAL _EXP?`. -/
def floatTok (cs : List Char) : Bool :=
  (splitsOf cs).any (fun ab => intTok ab.1 && expTok ab.2) ||
  decimalTok cs ||
  (splitsOf cs).any (fun ab => decimalTok ab.1 && expTok ab.2)

/-- Lark `NUMBER: FLOAT | INT`. -/
def numberTok (cs : List Char) : Bool := floatTok cs || intTok cs

/-- Lark `SIGNED_NUMBER: ("+"|"-")? NUMBER`: the `NUMBER` terminal of the
grammar (the `number` literal alternative). -/
def matchesNumber (s : String) : Bool :=
  match s.toList with
  | '+' :: r => numberTok r
  | '-' :: r => numberTok r
  | cs => numberTok cs

/-- The `UNQUOTED_STRING` terminal (the `naked_string` literal alternative). -/
def matchesUnquoted (s : String) : Bool :=
  !s.toList.isEmpty && s.toList.all isUnquotedCh

/-- The `QUOTED_STRING` terminal, at the precision the claims need: a
two-or-more character token delimited by a matching pair of `"` or single
quotes, whose interior contains no quote character (the full regex also
admits escaped interior quotes, which no claim exercises). -/
def matchesQuoted (s : String) : Bool :=
  match s.toList with
  | c :: (r1 :: rs) =>
      (c = '\x22' || c = '\x27') &&
      (r1 :: rs).getLast (by simp) = c &&
      ((r1 :: rs).dropLast.all (fun x => x ≠ '\x22' && x ≠ '\x27'))
  | _ => false

/-- Lark `CNAME: ("_"|LETTER)("_"|LETTER|DIGIT)*` (the `id` literal
alternative). -/
def matchesCNAME (s : String) : Bool :=
  match s.toList with
  | c :: rest =>
      (c = '_' || isLetterCh c) &&
      rest.all (fun x => x = '_' || isLetterCh x || isDigitCh x)
  | [] => false

/-- Digits of a token read as a natural number. -/
def digitsToNat (cs : List Char) : Nat :=
  cs.foldl (fun a c => a * 10 + (c.toNat - 48)) 0

/-- Splits a list at the first character satisfying `p`; returns the prefix
and, when found, the suffix after that character. -/
def splitFirst (p : Char → Bool) : List Char → List Char × Option (List Char)
  | [] => ([], Option.none)
  | c :: r =>
      if p c then ([], some r)
      else
        let (a, b) := splitFirst p r
        (c :: a, b)

/-- Python `float(tok)` on a `SIGNED_NUMBER` token, modelled exactly over
the rationals: sign, integer/fraction mantissa, optional decimal exponent. -/
def parseNum (s : String) : Rat :=
  let core : List Char → Rat := fun cs =>
    let (mant, ex) := splitFirst (fun c => c = 'e' || c = 'E') cs
    let (ip, fp) := splitFirst (fun c => c = '.') mant
    let frac : List Char := fp.getD []
    let m : Rat := (digitsToNat ip : Rat) + (digitsToNat frac : Rat) / ((10 : Rat) ^ frac.length)
    match ex with
    | Option.none => m
    | some e =>
        match e with
        | '+' :: r => m * (10 : Rat) ^ digitsToNat r
        | '-' :: r => m / (10 : Rat) ^ digitsToNat r
        | r => m * (10 : Rat) ^ digitsToNat r
  match s.toList with
  | '+' :: r => core r
  | '-' :: r => - core r
  | cs => core cs

/-- Strips the delimiting quotes: `node.children[0].value[1:-1]` in
`visit_literal`'s `string` branch. -/
def stripQuotes (s : String) : String :=
  String.mk s.toList.tail.dropLast

/-- Modelled from `GRAMMAR` and `visit_literal`: the candidate
interpretations one literal token yields.  With `ambiguity="explicit"` Lark
returns an `_ambig` node holding one child per literal alternative whose
terminal matches the token, and `visit_literal` yields one `LitReturn` per
child: `float(value)` for `number`, the stripped text for `string`, the raw
text for `naked_string`, and `Id(value)` for `id`.  The order of `_ambig`
children is not specified by Lark; no theorem below relies on the order of
this list, only on its membership and length. -/
def literalReadings (tok : String) : List Lit :=
  (if matchesNumber tok then [Lit.num (parseNum tok)] else []) ++
  (if matchesQuoted tok then [Lit.str (stripQuotes tok)] else []) ++
  (if matchesUnquoted tok then [Lit.str tok] else []) ++
  (if matchesCNAME tok then [Lit.id tok] else [])

/-- Modelled from `visit_literal_list`: the depth-first expansion of a
literal list node into fully disambiguated argument lists — for each
expansion of the tail, one list per reading of the head element
(`dfs` in the source iterates tail expansions in the outer loop and the
head literal's readings in the inner loop). -/
def literalListCandidates : List String → List (List Lit)
  | [] => []
  | [t] => (literalReadings t).map (fun l => [l])
  | t :: rest =>
      (literalListCandidates rest).flatMap
        (fun tail => (literalReadings t).map (fun l => l :: tail))

/-! ## Interpreter data model (`interpreter.py`) -/

/-- `InterpException(msg, priority=100)`: `priority` 0 is highest; the raise
sites use 10 (argument mismatch), 20 (unknown method / unknown target) and
the default 100 (unknown variable, execution errors).  Message strings
follow the source f-strings with quote characters elided. -/
structure InterpErr where
  msg : String
  priority : Nat
  deriving DecidableEq, Repr

/-- Message/priority of `raise InterpException(f"no callable function '{method}' was found", 20)`. -/
def unknownMethodErr (method : String) : InterpErr :=
  ⟨"no callable function " ++ method ++ " was found", 20⟩

/-- Message/priority of `raise InterpException(f"the given arguments did not bind to function {method}", 10)`. -/
def argMismatchErr (method : String) : InterpErr :=
  ⟨"the given arguments did not bind to function " ++ method, 10⟩

/-- Message/priority of `raise InterpException(f"unable to find variable {target}", 20)`. -/
def unknownTargetErr (target : String) : InterpErr :=
  ⟨"unable to find variable " ++ target, 20⟩

/-- Message/priority of `raise InterpException(f"argument {id_.value} was not a known variable")`
(default priority 100). -/
def unknownVariableErr (name : String) : InterpErr :=
  ⟨"argument " ++ name ++ " was not a known variable", 100⟩

/-- One parameter of a Python callable as `inspect.signature` reports it:
its name and, when present, its default value (`None` for
`options(obj=None)`, `""` for `save_session(path="")`). -/
structure Param where
  name : String
  default : Option PyVal
  deriving DecidableEq, Repr

/-- An attribute of a Python object: a callable with a parameter list, or a
non-callable value (`hasattr` sees both; `bind` then rejects
non-callables). -/
inductive Attr where
  | callable (params : List Param)
  | noncallable
  deriving DecidableEq, Repr

/-- An exception raised by a capability object's method: either an
`InterpException` (re-raised as-is by `_call_expression`) or any other
Python exception (wrapped as an execution error). -/
inductive ExcKind where
  | interpEx (e : InterpErr)
  | py (msg : String)
  deriving DecidableEq, Repr

/-- The interpreter-visible surface of one plain Python object: its type
name (for `options` rendering), its attribute table (in `dir` order) and
the behaviour of its callable attributes, modelled as a pure function from
bound positional values to a result or a raised exception.  Mutation of the
object's private state and I/O are outside the `Environment` and are not
observed by any claim. -/
structure ObjSpec where
  tyname : String
  attrs : List (String × Attr)
  run : String → List PyVal → Except ExcKind PyVal

/-- The object graph surrounding one interpreter run: the plain objects by
identity, and the attribute surface of wrapped primitive values (theorems
quantify over `primAttrs`, so they hold in particular for the true Python
attribute tables of `str`, `float`, `list`, ...). -/
structure World where
  objs : Nat → ObjSpec
  primAttrs : PyVal → ObjSpec

/-- `Interpreter.__init__`'s mutable fields: `_vars`, `_target` (initially
`InterpretableWrapper(self)`, i.e. `wrapper interpRef`), `_session`, and
`_apps` (factory registry; each factory is pure and produces a fixed value,
as the factories in `__main__.py` do). -/
structure Env where
  vars : List (String × PyVal)
  target : PyVal
  session : List String
  apps : List (String × PyVal)
  deriving DecidableEq, Repr

/-- The freshly constructed interpreter state. -/
def Env.init (apps : List (String × PyVal)) : Env :=
  ⟨[], .wrapper .interpRef, [], apps⟩

/-- One fully disambiguated candidate (`parser.Expression`): joined method
name, optional positional literal list, optional named literal map,
optional explicit target name, optional assignment name. -/
structure Expr where
  method : String
  args : Option (List Lit)
  kwargs : Option (List (String × Lit))
  target : Option String
  assignment : Option String
  deriving DecidableEq, Repr

/-- Where a bound method lives: an attribute of the wrapped value `v`
(`v = interpRef` dispatches to the interpreter's built-ins), or
`InterpretableWrapper.options`, the wrapper's own `__builtin` fallback. -/
inductive Recv where
  | objMeth (v : PyVal) (params : List Param)
  | wrapOptions (v : PyVal)
  deriving DecidableEq, Repr

/-- `BoundExpression`: the receiver method, the resolved positional and
named arguments, and the assignment name. -/
structure Bound where
  recv : Recv
  method : String
  args : List PyVal
  kwargs : List (String × PyVal)
  assignment : Option String
  deriving DecidableEq, Repr

/-! ## Reference resolution (`Interpreter._resolve_references`) -/

/-- `resolve_id` for one argument: a non-`Id` literal passes through; an
`Id` is looked up in `_vars` (raising the unknown-variable failure when
absent), and a variable holding an `InterpretableWrapper` contributes its
underlying `_obj` rather than the wrapper. -/
def resolveId (env : Env) : Lit → Except InterpErr PyVal
  | .num q => .ok (.num q)
  | .str s => .ok (.str s)
  | .id n =>
      match dictGet env.vars n with
      | Option.none => .error (unknownVariableErr n)
      | some (.wrapper u) => .ok u
      | some v => .ok v

/-- Effectful map that stops at the first raised failure, as the Python
loops in `_resolve_references` do. -/
def mapME (f : α → Except InterpErr β) : List α → Except InterpErr (List β)
  | [] => .ok []
  | x :: r =>
      match f x with
      | .error e => .error e
      | .ok y =>
          match mapME f r with
          | .error e => .error e
          | .ok ys => .ok (y :: ys)

/-- `_resolve_references`: resolves the positional list then the named map,
stopping at the first unknown variable (the Python loop raises there). -/
def resolveRefs (env : Env) (args : Option (List Lit))
    (kwargs : Option (List (String × Lit))) :
    Except InterpErr (List PyVal × List (String × PyVal)) :=
  match mapME (resolveId env) (args.getD []) with
  | .error e => .error e
  | .ok a =>
      match mapME (fun kv =>
          match resolveId env kv.2 with
          | .error e => .error e
          | .ok v => .ok (kv.1, v)) (kwargs.getD []) with
      | .error e => .error e
      | .ok k => .ok (a, k)

/-! ## Signature binding (`inspect.Signature.bind`) -/

def nodupKeys : List String → Bool
  | [] => true
  | x :: r => !r.contains x && nodupKeys r

/-- Option-valued map that fails when any element does. -/
def mapMO (f : α → Option β) : List α → Option (List β)
  | [] => some []
  | x :: r =>
      match f x with
      | Option.none => Option.none
      | some y =>
          match mapMO f r with
          | Option.none => Option.none
          | some ys => some (y :: ys)

/-- `sig.bind(*args, **kwargs)` for positional-or-keyword parameters:
positional arguments fill the leading parameters; each keyword argument
must name a distinct parameter not already filled positionally; every
remaining parameter must receive a keyword argument or have a default.
Returns the full positional value list on success. -/
def bindParams (params : List Param) (args : List PyVal)
    (kwargs : List (String × PyVal)) : Option (List PyVal) :=
  if params.length < args.length then Option.none
  else
    let rest := params.drop args.length
    if nodupKeys (kwargs.map Prod.fst) &&
       kwargs.all (fun kv => rest.any (fun p => p.name = kv.1)) then
      (mapMO (fun (p : Param) =>
        match kwargs.lookup p.name with
        | some v => some v
        | Option.none => p.default) rest).map (fun f => args ++ f)
    else Option.none

/-! ## The interpreter object's attribute surface -/

/-- The `Interpreter` class's attribute table: its public methods with the
parameters `inspect.signature` reports on the bound methods (`self`
excluded; `options` and `save_session` carry defaults), plus the
non-callable instance fields set in `__init__`, which `hasattr` also sees.
Dunder attributes are not modelled; no claim names one. -/
def interpAttrs : List (String × Attr) :=
  [ ("clear_session", .callable []),
    ("create", .callable [⟨"name", Option.none⟩]),
    ("delete", .callable [⟨"name", Option.none⟩]),
    ("drop_target", .callable []),
    ("exit", .callable []),
    ("list", .callable []),
    ("options", .callable [⟨"obj", some PyVal.none⟩]),
    ("save_session", .callable [⟨"path", some (PyVal.str "")⟩]),
    ("show", .callable [⟨"var_or_ref", Option.none⟩]),
    ("use", .callable [⟨"varname", Option.none⟩]),
    ("_apps", .noncallable),
    ("_iself", .noncallable),
    ("_parser", .noncallable),
    ("_session", .noncallable),
    ("_target", .noncallable),
    ("_vars", .noncallable) ]

/-- The attribute surface of the value wrapped by an
`InterpretableWrapper`: the interpreter object, a plain object from the
`World`, or a primitive (whose table the `World` supplies). -/
def attrsOf (w : World) : PyVal → ObjSpec
  | .interpRef => ⟨"Interpreter", interpAttrs, fun _ _ => .error (.py "unreachable")⟩
  | .obj i => w.objs i
  | v => w.primAttrs v

/-! ## Binding (`InterpretableWrapper.bind`, `Interpreter._resolve_expression`) -/

/-- `InterpretableWrapper.__builtin`. -/
def wrapperBuiltin : List String := ["options"]

/-- `InterpretableWrapper.bind(method, args, kwargs, assignment)` on a
wrapper of `v`: look the method up on the wrapped object (`hasattr` /
`getattr`); fall back to the wrapper's own `__builtin` list only when the
object has no such attribute at all; reject missing or non-callable
attributes with the priority-20 failure; then check the signature,
rejecting a mismatch with the priority-10 failure. -/
def wrapperBind (w : World) (v : PyVal) (method : String) (args : List PyVal)
    (kwargs : List (String × PyVal)) (assignment : Option String) :
    Except InterpErr Bound :=
  match (attrsOf w v).attrs.lookup method with
  | some (.callable ps) =>
      (match bindParams ps args kwargs with
       | some _ => .ok ⟨.objMeth v ps, method, args, kwargs, assignment⟩
       | Option.none => .error (argMismatchErr method))
  | some .noncallable => .error (unknownMethodErr method)
  | Option.none =>
      if wrapperBuiltin.contains method then
        -- `InterpretableWrapper.options` is a bound method with no parameters
        (match bindParams [] args kwargs with
         | some _ => .ok ⟨.wrapOptions v, method, args, kwargs, assignment⟩
         | Option.none => .error (argMismatchErr method))
      else .error (unknownMethodErr method)

/-- Resolving references then binding one receiver, the body of one
iteration of `_resolve_expression`'s candidate loop (`refs()` is evaluated
inside the `try`, so an unknown-variable failure is recorded against the
receiver like a bind failure). -/
def bindReceiver (w : World) (env : Env) (recv : PyVal) (e : Expr) :
    Except InterpErr Bound :=
  match resolveRefs env e.args e.kwargs with
  | .error er => .error er
  | .ok (a, k) =>
      match recv with
      | .wrapper u => wrapperBind w u e.method a k e.assignment
      | _ => .error ⟨"not interpretable", 0⟩  -- never consulted: the loop skips non-Interpretables

/-- One iteration of `_resolve_expression`'s candidate loop: skip a
non-`Interpretable` receiver, return the first success, or extend the `ex`
failure list. -/
def tryRecv (w : World) (env : Env) (e : Expr) (c : PyVal)
    (ex : List InterpErr) : Except (List InterpErr) Bound :=
  if c.isInterpretable then
    match bindReceiver w env c e with
    | .ok b => .ok b
    | .error er => .error (ex ++ [er])
  else .error ex

/-- `Interpreter._resolve_expression`.  With an explicit target the variable
is resolved (else the priority-20 unknown-target failure) and is the only
receiver; a non-`Interpretable` explicit target makes Python evaluate
`_target.bind` on an object with no `bind` attribute, an `AttributeError`
that is not an `InterpException` — returned here as a hard `.error`.
Without an explicit target the candidates `[_target, _iself]` are tried in
order, skipping non-`Interpretable`s; the first success returns; otherwise
the FIRST recorded failure is raised (`raise ex[0]`; the preceding
`sorted(ex, key=...)` discards its result and has no effect). -/
def resolveExpression (w : World) (env : Env) (e : Expr) :
    Except String (Except InterpErr Bound) :=
  match e.target with
  | some t =>
      (match dictGet env.vars t with
       | Option.none => .ok (.error (unknownTargetErr t))
       | some (.wrapper u) =>
           (match resolveRefs env e.args e.kwargs with
            | .error er => .ok (.error er)
            | .ok (a, k) => .ok (wrapperBind w u e.method a k e.assignment))
       | some _ => .error "AttributeError: object has no attribute bind")
  | Option.none =>
      -- candidates = [self._target, self._iself], tried in order
      match tryRecv w env e env.target [] with
      | .ok b => .ok (.ok b)
      | .error ex1 =>
          match tryRecv w env e (PyVal.wrapper .interpRef) ex1 with
          | .ok b => .ok (.ok b)
          | .error ex2 =>
              match ex2 with
              | er :: _ => .ok (.error er)
              | [] => .error "IndexError: list index out of range"

/-! ## Candidate selection and execution (`Interpreter.__call__`,
`Interpreter._call_expression`) -/

/-- The triple `__call__`'s local `bind` produces per candidate:
`(bound, 0, "success")` or `(None, e.priority, e.msg)`. -/
inductive CandR where
  | success (b : Bound)
  | failure (priority : Nat) (msg : String)
  deriving DecidableEq, Repr

/-- The sort key `lambda x: x[1]`. -/
def candKey : CandR → Nat
  | .success _ => 0
  | .failure p _ => p

/-- Stable insertion into a key-sorted list of LATER elements: the new,
earlier element passes only elements of strictly smaller key, so that
Python's stable `sorted` tie order (input order) is reproduced. -/
def insertStable (x : CandR) : List CandR → List CandR
  | [] => [x]
  | y :: r => if candKey y < candKey x then y :: insertStable x r else x :: y :: r

/-- Python's `sorted(..., key=lambda x: x[1])`: stable ascending sort. -/
def sortCands : List CandR → List CandR
  | [] => []
  | x :: r => insertStable x (sortCands r)

/-- Maps `resolveExpression`'s soft outcome to the recorded triple. -/
def candOf : Except InterpErr Bound → CandR
  | .ok b => .success b
  | .error e => .failure e.priority e.msg

/-- Binding every candidate in generation order; a non-`InterpException`
escape (hard error) aborts the whole statement. -/
def bindAll (w : World) (env : Env) : List Expr → Except String (List CandR)
  | [] => .ok []
  | e :: rest =>
      match resolveExpression w env e with
      | .error m => .error m
      | .ok r =>
          match bindAll w env rest with
          | .error m => .error m
          | .ok l => .ok (candOf r :: l)

/-- Result of running one bound method. -/
inductive ExecR where
  | ok (env : Env) (r : PyVal)
  | exc (env : Env) (e : InterpErr)
  | pyexc (env : Env) (msg : String)
  | halt

/-- The interpreter's own built-in methods (`create`, `delete`,
`drop_target`, `clear_session`, `save_session`, `list`, `show`, `use`,
`options`, `exit`), executed on the bound positional values.  `show`,
`options` and `save_session` only render or write externally; their state
effect (none) and return values are modelled, their textual output is not
observed by any claim. -/
def execBuiltin (env : Env) (m : String) (vals : List PyVal) : ExecR :=
  if m = "create" then
    match vals with
    | [PyVal.str s] =>
        (match env.apps.lookup s with
         | some v => .ok env v
         | Option.none =>
             .exc env ⟨"requested non-existent app type " ++ s, 100⟩)
    | [_] => .exc env ⟨"requested non-existent app type", 100⟩
    | _ => .pyexc env "TypeError"
  else if m = "delete" then
    match vals with
    | [PyVal.str s] =>
        (match dictGet env.vars s with
         | some _ => .ok { env with vars := dictDel env.vars s } PyVal.none
         | Option.none => .exc env ⟨"theres no variable called " ++ s, 100⟩)
    | [_] => .exc env ⟨"theres no variable called", 100⟩
    | _ => .pyexc env "TypeError"
  else if m = "drop_target" then
    match vals with
    | [] => .ok { env with target := .wrapper .interpRef } PyVal.none
    | _ => .pyexc env "TypeError"
  else if m = "clear_session" then
    match vals with
    | [] => .ok { env with session := [] } PyVal.none
    | _ => .pyexc env "TypeError"
  else if m = "save_session" then
    match vals with
    | [PyVal.str p] => .ok env (.str ("saved to " ++ p ++ "/session.txt"))
    | [_] => .pyexc env "TypeError"
    | _ => .pyexc env "TypeError"
  else if m = "list" then
    match vals with
    | [] => .ok env (.list (env.apps.map (fun kv => PyVal.str kv.1)))
    | _ => .pyexc env "TypeError"
  else if m = "show" then
    match vals with
    | [_] => .ok env PyVal.none
    | _ => .pyexc env "TypeError"
  else if m = "use" then
    match vals with
    | [PyVal.str s] =>
        (match dictGet env.vars s with
         | some _ =>
             (match dictGet (dictSet env.vars "previousTarget" env.target) s with
              | some tv =>
                  .ok { env with vars := dictSet env.vars "previousTarget" env.target,
                                 target := tv } PyVal.none
              | Option.none => .pyexc env "KeyError")
         | Option.none =>
             .exc env ⟨"requested target " ++ s ++
               " was not in variables. Use options to see variables", 100⟩)
    | [_] =>
        .exc env ⟨"requested target was not in variables. Use options to see variables", 100⟩
    | _ => .pyexc env "TypeError"
  else if m = "options" then
    match vals with
    | [_] => .ok env (.str "options text")
    | _ => .pyexc env "TypeError"
  else if m = "exit" then
    .halt
  else
    .pyexc env "AttributeError"

/-- `_`-to-space substitution used by the wrapper's `options` rendering. -/
def subUnder (s : String) : String :=
  String.map (fun c => if c = '_' then ' ' else c) s

/-- `InterpretableWrapper.options`: the type line, the `functions:` header,
then each public callable's display name and parameter names, one line per
entry, returned as a list of strings. -/
def wrapperOptionsLines (o : ObjSpec) : List PyVal :=
  ([PyVal.str ("type: " ++ o.tyname), PyVal.str "functions:"] : List PyVal) ++
  (o.attrs.flatMap (fun a =>
    match a.2 with
    | .callable ps =>
        if a.1.startsWith "_" then []
        else PyVal.str ("  " ++ subUnder a.1) ::
          ps.map (fun (p : Param) => PyVal.str ("    " ++ p.name))
    | .noncallable => []))

/-- `BoundExpression.__call__`: re-binds the arguments to the parameters
(as `method(*args, **kwargs)` does) and dispatches: interpreter built-ins
for a method of the interpreter object, the `World`'s behaviour for a plain
object's or primitive's method, the wrapper's introspection for
`wrapOptions`. -/
def execBound (w : World) (env : Env) (b : Bound) : ExecR :=
  match b.recv with
  | .wrapOptions v => .ok env (.list (wrapperOptionsLines (attrsOf w v)))
  | .objMeth v params =>
      match bindParams params b.args b.kwargs with
      | Option.none => .pyexc env "TypeError"
      | some vals =>
          match v with
          | .interpRef => execBuiltin env b.method vals
          | u =>
              match (attrsOf w u).run b.method vals with
              | .ok r => .ok env r
              | .error (.interpEx e) => .exc env e
              | .error (.py msg) => .pyexc env msg

/-- The storage rule of `_call_expression`: `str`, `list`, `dict`, `set`
and `Interpretable` results are stored verbatim; every other result —
numbers, `None`, plain objects — is wrapped in an `InterpretableWrapper`
first. -/
def storeVal (r : PyVal) : PyVal :=
  match r with
  | .str _ | .list _ | .dict _ _ | .pset _ | .wrapper _ => r
  | v => .wrapper v

/-- Outcome of one statement, as `__call__` observes it. -/
inductive Outcome where
  | success
  | noBinding (e : InterpErr)
  | parseError
  | interpError (e : InterpErr)
  | genericError (msg : String)
  | halted
  | empty
  deriving DecidableEq, Repr

/-- `_call_expression` on the selected binding: run the method; re-raise an
`InterpException`; wrap any other exception as the priority-100 execution
error; on success store the result under the assignment name (per
`storeVal`) or render it. -/
def callExpression (w : World) (env : Env) (b : Bound) : Env × Outcome :=
  match execBound w env b with
  | .halt => (env, .halted)
  | .exc env' e => (env', .interpError e)
  | .pyexc env' m => (env', .interpError ⟨"execution error, " ++ m, 100⟩)
  | .ok env' r =>
      match b.assignment with
      | some n => ({ env' with vars := dictSet env'.vars n (storeVal r) }, .success)
      | Option.none => (env', .success)

/-- `Interpreter.__call__` up to (excluding) the session append: parse
failure aborts; every candidate is bound; the triples are stably sorted by
priority and the head selected; a head of non-zero priority reports the
no-viable-binding failure; otherwise the bound expression executes. -/
def interpExec (w : World) (env : Env) (parsed : Except Unit (List Expr)) :
    Env × Outcome :=
  match parsed with
  | .error _ => (env, .parseError)
  | .ok exps =>
      match bindAll w env exps with
      | .error m => (env, .genericError m)
      | .ok rs =>
          match sortCands rs with
          | [] => (env, .empty)
          | r :: _ =>
              match r with
              | .success b => callExpression w env b
              | .failure p msg => (env, .noBinding ⟨msg, p⟩)

/-- `Interpreter.__call__`: the statement string is appended to `_session`
exactly when execution finished with no error, strictly after the
execution effect. -/
def interpCall (w : World) (env : Env) (stmt : String)
    (parsed : Except Unit (List Expr)) : Env × Outcome :=
  match interpExec w env parsed with
  | (env', .success) => ({ env' with session := env'.session ++ [stmt] }, .success)
  | (env', o) => (env', o)

/-- The outer shell's loop: one statement after the other, stopping when
`exit` propagates `SystemExit`. -/
def runAll (w : World) : Env → List (String × Except Unit (List Expr)) → Env
  | env, [] => env
  | env, (s, p) :: rest =>
      match interpCall w env s p with
      | (env', .halted) => env'
      | (env', _) => runAll w env' rest

/-! ## Observables used by claim statements -/

/-- One receiver attempt of `_resolve_expression`'s loop: `None` when the
candidate receiver is skipped as non-`Interpretable`. -/
def attemptRecv (w : World) (env : Env) (e : Expr) (c : PyVal) :
    Option (Except InterpErr Bound) :=
  if c.isInterpretable then some (bindReceiver w env c e) else Option.none

/-- Every bind failure encountered while resolving one candidate: the `ex`
list of `_resolve_expression` at the moment the loop ends (empty when some
receiver binds, since the loop returns there). -/
def receiverFailures (w : World) (env : Env) (e : Expr) : List InterpErr :=
  match e.target with
  | some _ =>
      (match resolveExpression w env e with
       | .ok (.error er) => [er]
       | _ => [])
  | Option.none =>
      match attemptRecv w env e env.target with
      | some (.ok _) => []
      | some (.error e1) =>
          e1 :: (match attemptRecv w env e (.wrapper .interpRef) with
                 | some (.error e2) => [e2]
                 | _ => [])
      | Option.none =>
          (match attemptRecv w env e (.wrapper .interpRef) with
           | some (.error e2) => [e2]
           | _ => [])

/-- The earliest element of least key: the failure the spec's selection rule
("lowest priority value, ties broken by candidate order") designates. -/
def earliestMinKey : List CandR → Option CandR
  | [] => Option.none
  | x :: r =>
      match earliestMinKey r with
      | some y => some (if candKey x ≤ candKey y then x else y)
      | Option.none => some x

/-- The statements accepted into the log, in input order (stopping at a
halt, as the shell does). -/
def accepted (w : World) : Env → List (String × Except Unit (List Expr)) → List String
  | _, [] => []
  | env, (s, p) :: rest =>
      match interpCall w env s p with
      | (_, .halted) => []
      | (env', .success) => s :: accepted w env' rest
      | (env', _) => accepted w env' rest

/-- `e` is the argument-shape failure of `InterpretableWrapper.bind`. -/
def isArgMismatch (e : InterpErr) : Prop := ∃ m, e = argMismatchErr m

/-- `e` is the method-existence failure of `InterpretableWrapper.bind`. -/
def isUnknownMethod (e : InterpErr) : Prop := ∃ m, e = unknownMethodErr m

/-- The wrapped object `v` exposes no callable attribute named `m`. -/
def noCallableAttr (w : World) (v : PyVal) (m : String) : Prop :=
  ∀ ps, (attrsOf w v).attrs.lookup m ≠ some (.callable ps)

/-! ## Parse forests of the concrete statements the claims exercise

Lark's Earley parser with `ambiguity="explicit"` is external; the candidate
lists of the concrete statements used below are derived by hand from
`GRAMMAR` and the visitor functions (`visit_start`, `visit_method`,
`visit_literal_list`, `visit_literal`).  The order in which Lark emits
`_ambig` children is unspecified; every theorem below is insensitive to the
order of these lists (at most one candidate binds, or the selected failure
priority is unique). -/

/-- `"drop_target x"`: the method span takes one or both tokens
(`method: id~1..4`), and the trailing `x` literal reads as a naked string
or an identifier. -/
def dropTargetXCands : List Expr :=
  [ ⟨"drop_target_x", Option.none, Option.none, Option.none, Option.none⟩,
    ⟨"drop_target", some [.str "x"], Option.none, Option.none, Option.none⟩,
    ⟨"drop_target", some [.id "x"], Option.none, Option.none, Option.none⟩ ]

/-- `"delete 1,2"`: a single method token and a two-element literal list,
each number token also reading as a naked string
(`literalListCandidates ["1", "2"]`). -/
def deleteOneTwoCands : List Expr :=
  (literalListCandidates ["1", "2"]).map
    (fun l => ⟨"delete", some l, Option.none, Option.none, Option.none⟩)

/-- `"drop target"`: the method span takes both tokens, or `drop` alone
with `target` as a naked-string or identifier argument. -/
def dropTargetCands : List Expr :=
  [ ⟨"drop_target", Option.none, Option.none, Option.none, Option.none⟩,
    ⟨"drop", some [.str "target"], Option.none, Option.none, Option.none⟩,
    ⟨"drop", some [.id "target"], Option.none, Option.none, Option.none⟩ ]

/-- `"delete <z>"` for a `CNAME` token `z`: the method span takes both
tokens (joined as `delete_<z>`), or `delete` alone with `z` under each of
its literal readings. -/
def deleteCands (z : String) : List Expr :=
  ⟨"delete_" ++ z, Option.none, Option.none, Option.none, Option.none⟩ ::
  (literalReadings z).map
    (fun l => ⟨"delete", some [l], Option.none, Option.none, Option.none⟩)

/-- The empty object surface: no attributes, every call raises. -/
def emptyObj : ObjSpec := ⟨"object", [], fun _ _ => .error (.py "AttributeError")⟩

/-- A world of featureless objects and primitives, enough for the concrete
scenarios. -/
def plainWorld : World := ⟨fun _ => emptyObj, fun _ => emptyObj⟩

/-- `e` is the explicit-target-resolution failure. -/
def isUnknownTarget (e : InterpErr) : Prop := ∃ t, e = unknownTargetErr t

/-- `e` is the argument-reference-resolution failure. -/
def isUnknownVariable (e : InterpErr) : Prop := ∃ n, e = unknownVariableErr n

/-- The four binding-failure kinds `_resolve_expression` can surface. -/
def failureShape (e : InterpErr) : Prop :=
  isUnknownMethod e ∨ isArgMismatch e ∨ isUnknownTarget e ∨ isUnknownVariable e

/-- The recorded triple of a binding failure. -/
def failureOf (e : InterpErr) : CandR := .failure e.priority e.msg

/-! ## Support lemmas -/

theorem mapME_error_mem {f : α → Except InterpErr β} :
    ∀ {l : List α} {er}, mapME f l = .error er → ∃ x ∈ l, f x = .error er := by
  intro l
  induction l with
  | nil => intro er h; simp [mapME] at h
  | cons x r ih =>
      intro er h
      unfold mapME at h
      cases hx : f x with
      | error e => rw [hx] at h; cases h; exact ⟨x, List.mem_cons_self _ _, hx⟩
      | ok y =>
          rw [hx] at h
          cases hr : mapME f r with
          | error e => rw [hr] at h; cases h; obtain ⟨z, hz, hfz⟩ := ih hr
                       exact ⟨z, List.mem_cons_of_mem _ hz, hfz⟩
          | ok ys => rw [hr] at h; cases h

theorem resolveId_error {env : Env} {l : Lit} {er} (h : resolveId env l = .error er) :
    isUnknownVariable er := by
  cases l with
  | num q => simp [resolveId] at h
  | str s => simp [resolveId] at h
  | id n =>
      simp only [resolveId] at h
      split at h
      · cases h; exact ⟨n, rfl⟩
      · cases h
      · cases h

theorem resolveRefs_error {env : Env} {a k er}
    (h : resolveRefs env a k = .error er) : isUnknownVariable er := by
  simp only [resolveRefs] at h
  cases h1 : mapME (resolveId env) (a.getD []) with
  | error e =>
      simp only [h1] at h
      cases h
      obtain ⟨x, _, hx⟩ := mapME_error_mem h1
      exact resolveId_error hx
  | ok xs =>
      simp only [h1] at h
      cases h2 : mapME (fun kv =>
          match resolveId env kv.2 with
          | .error e => .error e
          | .ok v => .ok (kv.1, v)) (k.getD []) with
      | error e =>
          simp only [h2] at h
          cases h
          obtain ⟨kv, _, hkv⟩ := mapME_error_mem h2
          cases hr : resolveId env kv.2 with
          | error e2 =>
              simp only [hr] at hkv
              cases hkv
              exact resolveId_error hr
          | ok v => simp only [hr] at hkv; cases hkv
      | ok ks => simp only [h2] at h; cases h

theorem wrapperBind_error {w v m a k asg er}
    (h : wrapperBind w v m a k asg = .error er) :
    isUnknownMethod er ∨ isArgMismatch er := by
  simp only [wrapperBind] at h
  split at h
  · split at h
    · cases h
    · cases h; exact Or.inr ⟨m, rfl⟩
  · cases h; exact Or.inl ⟨m, rfl⟩
  · split at h
    · split at h
      · cases h
      · cases h; exact Or.inr ⟨m, rfl⟩
    · cases h; exact Or.inl ⟨m, rfl⟩

theorem wrapperBind_ok {w v m a k asg b}
    (h : wrapperBind w v m a k asg = .ok b) :
    b.method = m ∧ b.args = a ∧ b.kwargs = k ∧ b.assignment = asg := by
  simp only [wrapperBind] at h
  split at h
  · split at h
    · cases h; exact ⟨rfl, rfl, rfl, rfl⟩
    · cases h
  · cases h
  · split at h
    · split at h
      · cases h; exact ⟨rfl, rfl, rfl, rfl⟩
      · cases h
    · cases h

theorem bindReceiver_wrapper_error {w env u e er}
    (h : bindReceiver w env (.wrapper u) e = .error er) : failureShape er := by
  simp only [bindReceiver] at h
  split at h
  · cases h
    next hr => exact Or.inr (Or.inr (Or.inr (resolveRefs_error hr)))
  · rcases wrapperBind_error h with h2 | h2
    · exact Or.inl h2
    · exact Or.inr (Or.inl h2)

theorem bindReceiver_ok_method {w env u e b}
    (h : bindReceiver w env (.wrapper u) e = .ok b) : b.method = e.method := by
  simp only [bindReceiver] at h
  split at h
  · cases h
  · exact (wrapperBind_ok h).1

theorem resolveExpression_error_shape {w env e er}
    (h : resolveExpression w env e = .ok (.error er)) : failureShape er := by
  -- the ex list only accumulates bindReceiver failures of wrapper receivers
  have exShape : ∀ (c : PyVal) (ex : List InterpErr),
      (∀ x ∈ ex, failureShape x) →
      ∀ ex2, tryRecv w env e c ex = .error ex2 → ∀ x ∈ ex2, failureShape x := by
    intro c ex hex ex2 ht x hx
    unfold tryRecv at ht
    split at ht
    · next hint =>
        cases hb : bindReceiver w env c e with
        | ok b => rw [hb] at ht; cases ht
        | error er2 =>
            rw [hb] at ht; cases ht
            rcases List.mem_append.mp hx with h1 | h1
            · exact hex x h1
            · have hc : ∃ u, c = PyVal.wrapper u := by
                cases c <;> simp_all [PyVal.isInterpretable]
              obtain ⟨u, rfl⟩ := hc
              cases List.mem_singleton.mp h1
              exact bindReceiver_wrapper_error hb
    · cases ht; exact hex x hx
  cases he : e.target with
  | some t =>
      simp only [resolveExpression, he] at h
      cases hv : dictGet env.vars t with
      | none =>
          simp only [hv] at h
          cases h
          exact Or.inr (Or.inr (Or.inl ⟨t, rfl⟩))
      | some v =>
          simp only [hv] at h
          cases v <;> try (simp at h)
          case wrapper u =>
            cases hr : resolveRefs env e.args e.kwargs with
            | error e2 =>
                simp only [hr] at h
                cases h
                exact Or.inr (Or.inr (Or.inr (resolveRefs_error hr)))
            | ok ak =>
                obtain ⟨a, k⟩ := ak
                simp only [hr] at h
                cases hw : wrapperBind w u e.method a k e.assignment with
                | error e2 =>
                    simp only [hw] at h
                    cases h
                    rcases wrapperBind_error hw with h2 | h2
                    · exact Or.inl h2
                    · exact Or.inr (Or.inl h2)
                | ok b => simp only [hw] at h; simp at h
  | none =>
      simp only [resolveExpression, he] at h
      cases h1 : tryRecv w env e env.target [] with
      | ok b => simp only [h1] at h; simp at h
      | error ex1 =>
          simp only [h1] at h
          cases h2 : tryRecv w env e (PyVal.wrapper .interpRef) ex1 with
          | ok b => simp only [h2] at h; simp at h
          | error ex2 =>
              simp only [h2] at h
              cases ex2 with
              | nil => simp at h
              | cons e0 rest =>
                  simp only [Except.ok.injEq, Except.error.injEq] at h
                  subst h
                  exact exShape _ _ (exShape _ [] (by simp) _ h1) _ h2 e0
                    (List.mem_cons_self _ _)

theorem resolveExpression_ok_method {w env e b}
    (h : resolveExpression w env e = .ok (.ok b)) : b.method = e.method := by
  have step : ∀ (c : PyVal) (ex : List InterpErr),
      tryRecv w env e c ex = .ok b → b.method = e.method := by
    intro c ex ht
    unfold tryRecv at ht
    split at ht
    · next hint =>
        cases hb : bindReceiver w env c e with
        | ok b2 =>
            rw [hb] at ht; cases ht
            have hc : ∃ u, c = PyVal.wrapper u := by
              cases c <;> simp_all [PyVal.isInterpretable]
            obtain ⟨u, rfl⟩ := hc
            exact bindReceiver_ok_method hb
        | error er2 => rw [hb] at ht; cases ht
    · cases ht
  cases he : e.target with
  | some t =>
      simp only [resolveExpression, he] at h
      cases hv : dictGet env.vars t with
      | none => simp only [hv] at h; simp at h
      | some v =>
          simp only [hv] at h
          cases v <;> try (simp at h)
          case wrapper u =>
            cases hr : resolveRefs env e.args e.kwargs with
            | error e2 => simp only [hr] at h; simp at h
            | ok ak =>
                obtain ⟨a, k⟩ := ak
                simp only [hr] at h
                cases hw : wrapperBind w u e.method a k e.assignment with
                | error e2 => simp only [hw] at h; simp at h
                | ok b2 =>
                    simp only [hw] at h
                    cases h
                    exact (wrapperBind_ok hw).1
  | none =>
      simp only [resolveExpression, he] at h
      cases h1 : tryRecv w env e env.target [] with
      | ok b2 =>
          simp only [h1] at h
          cases h
          exact step _ _ h1
      | error ex1 =>
          simp only [h1] at h
          cases h2 : tryRecv w env e (PyVal.wrapper .interpRef) ex1 with
          | ok b2 =>
              simp only [h2] at h
              cases h
              exact step _ _ h2
          | error ex2 =>
              simp only [h2] at h
              cases ex2 with
              | nil => simp at h
              | cons e0 rest => simp at h

theorem failureShape_priority {e : InterpErr} (h : failureShape e) :
    e.priority = 10 ∨ e.priority = 20 ∨ e.priority = 100 := by
  rcases h with ⟨m, rfl⟩ | ⟨m, rfl⟩ | ⟨t, rfl⟩ | ⟨n, rfl⟩
  · exact Or.inr (Or.inl rfl)
  · exact Or.inl rfl
  · exact Or.inr (Or.inl rfl)
  · exact Or.inr (Or.inr rfl)

theorem failureShape_ten {e : InterpErr} (h : failureShape e)
    (hp : e.priority = 10) : isArgMismatch e := by
  rcases h with ⟨m, rfl⟩ | h2 | ⟨t, rfl⟩ | ⟨n, rfl⟩
  · cases hp
  · exact h2
  · cases hp
  · cases hp

theorem bindAll_mem_origin {w env} :
    ∀ {exps rs}, bindAll w env exps = .ok rs → ∀ r ∈ rs,
      ∃ e ∈ exps, ∃ sr, resolveExpression w env e = .ok sr ∧ r = candOf sr := by
  intro exps
  induction exps with
  | nil => intro rs h r hr; cases h; cases hr
  | cons e rest ih =>
      intro rs h r hr
      unfold bindAll at h
      cases h1 : resolveExpression w env e with
      | error m => rw [h1] at h; cases h
      | ok sr =>
          rw [h1] at h
          cases h2 : bindAll w env rest with
          | error m => rw [h2] at h; cases h
          | ok l =>
              rw [h2] at h; cases h
              rcases List.mem_cons.mp hr with h3 | h3
              · exact ⟨e, List.mem_cons_self _ _, sr, h1, h3⟩
              · obtain ⟨e2, he2, sr2, hsr2, hr2⟩ := ih h2 r h3
                exact ⟨e2, List.mem_cons_of_mem _ he2, sr2, hsr2, hr2⟩

theorem head_insertStable (x : CandR) (s : List CandR) :
    (insertStable x s).head? =
      some (match s.head? with
            | some y => if candKey y < candKey x then y else x
            | Option.none => x) := by
  cases s with
  | nil => rfl
  | cons y r =>
      simp only [insertStable]
      by_cases h : candKey y < candKey x
      · simp [h]
      · simp [h]

theorem head_sortCands (l : List CandR) :
    (sortCands l).head? = earliestMinKey l := by
  induction l with
  | nil => rfl
  | cons x r ih =>
      simp only [sortCands, earliestMinKey, head_insertStable, ih]
      cases h : earliestMinKey r with
      | none => rfl
      | some y =>
          by_cases h2 : candKey y < candKey x
          · have : ¬ candKey x ≤ candKey y := not_le.mpr h2
            simp [h2, this]
          · have : candKey x ≤ candKey y := le_of_not_lt h2
            simp [h2, this]

theorem mem_insertStable {x z : CandR} :
    ∀ {s : List CandR}, z ∈ insertStable x s → z = x ∨ z ∈ s := by
  intro s
  induction s with
  | nil => intro h; simpa [insertStable] using h
  | cons y r ih =>
      intro h
      simp only [insertStable] at h
      by_cases h2 : candKey y < candKey x
      · rw [if_pos h2] at h
        rcases List.mem_cons.mp h with h3 | h3
        · exact Or.inr (h3 ▸ List.mem_cons_self _ _)
        · rcases ih h3 with h4 | h4
          · exact Or.inl h4
          · exact Or.inr (List.mem_cons_of_mem _ h4)
      · rw [if_neg h2] at h
        rcases List.mem_cons.mp h with h3 | h3
        · exact Or.inl h3
        · exact Or.inr h3

theorem mem_sortCands {z : CandR} :
    ∀ {l : List CandR}, z ∈ sortCands l → z ∈ l := by
  intro l
  induction l with
  | nil => intro h; simp [sortCands] at h
  | cons x r ih =>
      intro h
      rcases mem_insertStable h with h2 | h2
      · exact h2 ▸ List.mem_cons_self _ _
      · exact List.mem_cons_of_mem _ (ih h2)

theorem earliestMinKey_mem : ∀ {l : List CandR} {x}, earliestMinKey l = some x → x ∈ l := by
  intro l
  induction l with
  | nil => intro x h; cases h
  | cons y r ih =>
      intro x h
      simp only [earliestMinKey] at h
      cases h2 : earliestMinKey r with
      | none => rw [h2] at h; cases h; exact List.mem_cons_self _ _
      | some z =>
          rw [h2] at h
          cases h
          by_cases h3 : candKey y ≤ candKey z
          · simp only [if_pos h3]
            exact List.mem_cons_self _ _
          · simp only [if_neg h3]
            exact List.mem_cons_of_mem _ (ih h2)

theorem earliestMinKey_none : ∀ {l : List CandR}, earliestMinKey l = Option.none → l = [] := by
  intro l h
  cases l with
  | nil => rfl
  | cons x r =>
      simp only [earliestMinKey] at h
      cases h2 : earliestMinKey r with
      | none => rw [h2] at h; cases h
      | some z => rw [h2] at h; cases h

theorem earliestMinKey_le : ∀ {l : List CandR} {x}, earliestMinKey l = some x →
    ∀ y ∈ l, candKey x ≤ candKey y := by
  intro l
  induction l with
  | nil => intro x h; cases h
  | cons z r ih =>
      intro x h y hy
      simp only [earliestMinKey] at h
      cases h2 : earliestMinKey r with
      | none =>
          rw [h2] at h; cases h
          have hr := earliestMinKey_none h2
          subst hr
          rcases List.mem_cons.mp hy with h3 | h3
          · rw [h3]
          · cases h3
      | some z2 =>
          rw [h2] at h
          cases h
          rcases List.mem_cons.mp hy with h3 | h3
          · rw [h3]
            by_cases h4 : candKey z ≤ candKey z2
            · simp [if_pos h4]
            · simp only [if_neg h4]
              exact le_of_lt (lt_of_not_le h4)
          · by_cases h4 : candKey z ≤ candKey z2
            · simp only [if_pos h4]
              exact le_trans h4 (ih h2 y h3)
            · simp only [if_neg h4]
              exact ih h2 y h3

/-- Projection of the environment out of an execution result (`env0` when
the process halts with the state as it was). -/
def ExecR.envOf (env0 : Env) : ExecR → Env
  | .ok e _ => e
  | .exc e _ => e
  | .pyexc e _ => e
  | .halt => env0

theorem execBuiltin_session (env : Env) (m : String) (vals : List PyVal)
    (hm : m ≠ "clear_session") :
    ((execBuiltin env m vals).envOf env).session = env.session := by
  unfold execBuiltin
  split_ifs <;> first
    | (exact absurd (by assumption) hm)
    | (repeat' split) <;> rfl

theorem execBuiltin_vars (env : Env) (m : String) (vals : List PyVal)
    (hm : m ≠ "delete") (hm2 : m ≠ "use") :
    ((execBuiltin env m vals).envOf env).vars = env.vars := by
  unfold execBuiltin
  split_ifs <;> first
    | (exact absurd (by assumption) hm)
    | (exact absurd (by assumption) hm2)
    | (repeat' split) <;> rfl

theorem execBound_session (w : World) (env : Env) (b : Bound)
    (hm : b.method ≠ "clear_session") :
    ((execBound w env b).envOf env).session = env.session := by
  unfold execBound
  split
  · rfl
  · split
    · rfl
    · split
      · exact execBuiltin_session env b.method _ hm
      all_goals (split <;> rfl)

theorem callExpression_session (w : World) (env : Env) (b : Bound)
    (hm : b.method ≠ "clear_session") :
    ((callExpression w env b).1).session = env.session := by
  have h := execBound_session w env b hm
  unfold callExpression
  cases he : execBound w env b with
  | halt => rfl
  | exc e2 er => rw [he] at h; exact h
  | pyexc e2 ms => rw [he] at h; exact h
  | ok e2 r =>
      rw [he] at h
      cases b.assignment <;> simp only [ExecR.envOf] at h <;> exact h

theorem interpExec_session (w : World) (env : Env)
    (parsed : Except Unit (List Expr))
    (hp : ∀ exps, parsed = .ok exps → ∀ e ∈ exps, e.method ≠ "clear_session") :
    ((interpExec w env parsed).1).session = env.session := by
  unfold interpExec
  cases parsed with
  | error u => rfl
  | ok exps =>
      simp only
      cases hb : bindAll w env exps with
      | error m => simp only [hb]
      | ok rs =>
          simp only [hb]
          cases hs : sortCands rs with
          | nil => simp only [hs]
          | cons r rest =>
              simp only [hs]
              cases r with
              | failure p msg => simp only
              | success b =>
                  simp only
                  apply callExpression_session
                  have hr : CandR.success b ∈ rs :=
                    mem_sortCands (hs ▸ List.mem_cons_self _ _)
                  obtain ⟨e, he, sr, hsr, hcand⟩ := bindAll_mem_origin hb _ hr
                  cases sr with
                  | error e2 => simp [candOf] at hcand
                  | ok b2 =>
                      simp only [candOf, CandR.success.injEq] at hcand
                      subst hcand
                      rw [resolveExpression_ok_method hsr]
                      exact hp exps rfl e he

theorem mapME_ok_get {f : α → Except InterpErr β} :
    ∀ {l : List α} {res : List β}, mapME f l = .ok res →
      ∀ (i : Nat) (x : α), l[i]? = some x → ∃ y, f x = .ok y ∧ res[i]? = some y := by
  intro l
  induction l with
  | nil => intro res h i x hx; simp at hx
  | cons a r ih =>
      intro res h i x hx
      unfold mapME at h
      cases ha : f a with
      | error e => rw [ha] at h; cases h
      | ok y =>
          rw [ha] at h
          cases hr : mapME f r with
          | error e => rw [hr] at h; cases h
          | ok ys =>
              rw [hr] at h
              cases h
              cases i with
              | zero =>
                  simp only [List.getElem?_cons_zero, Option.some.injEq] at hx
                  subst hx
                  exact ⟨y, ha, List.getElem?_cons_zero⟩
              | succ j =>
                  simp only [List.getElem?_cons_succ] at hx
                  obtain ⟨y2, hy2, hres⟩ := ih hr j x hx
                  refine ⟨y2, hy2, ?_⟩
                  simp only [List.getElem?_cons_succ]
                  exact hres

theorem resolveRefs_ok_args {env : Env} {args : Option (List Lit)}
    {kwargs : Option (List (String × Lit))} {res}
    (h : resolveRefs env args kwargs = .ok res) :
    mapME (resolveId env) (args.getD []) = .ok res.1 := by
  simp only [resolveRefs] at h
  cases h1 : mapME (resolveId env) (args.getD []) with
  | error e => rw [h1] at h; cases h
  | ok xs =>
      rw [h1] at h
      cases h2 : mapME (fun kv =>
          match resolveId env kv.2 with
          | .error e => .error e
          | .ok v => .ok (kv.1, v)) (kwargs.getD []) with
      | error e => rw [h2] at h; cases h
      | ok ks => rw [h2] at h; cases h; rfl

theorem resolveRefs_ok_kwargs {env : Env} {args : Option (List Lit)}
    {kwargs : Option (List (String × Lit))} {res}
    (h : resolveRefs env args kwargs = .ok res) :
    mapME (fun kv =>
        match resolveId env kv.2 with
        | .error e => .error e
        | .ok v => .ok (kv.1, v)) (kwargs.getD []) = .ok res.2 := by
  simp only [resolveRefs] at h
  cases h1 : mapME (resolveId env) (args.getD []) with
  | error e => rw [h1] at h; cases h
  | ok xs =>
      rw [h1] at h
      cases h2 : mapME (fun kv =>
          match resolveId env kv.2 with
          | .error e => .error e
          | .ok v => .ok (kv.1, v)) (kwargs.getD []) with
      | error e => rw [h2] at h; cases h
      | ok ks => rw [h2] at h; cases h; rfl

/-! ## Claim theorems -/

/-- C3 counterexample: the number literal `+5` (a `SIGNED_NUMBER` whose text
is not an `UNQUOTED_STRING`, since `+` is outside that terminal's character
class) yields exactly ONE candidate — its numeric value — and no candidate
carrying its textual form `"+5"`, so a statement with `+5` as argument does
not get two candidates for that literal. -/
theorem C3_plus_number_single_candidate :
    matchesNumber "+5" = true ∧
    (literalReadings "+5").length = 1 ∧
    Lit.str "+5" ∉ literalReadings "+5" ∧
    literalListCandidates ["+5"] = [[Lit.num (parseNum "+5")]] := by
  refine ⟨by decide, rfl, ?_, rfl⟩
  have h : literalReadings "+5" = [Lit.num (parseNum "+5")] := rfl
  rw [h]
  simp

/-- C3 (amended): a number literal whose textual form also lexes as an
`UNQUOTED_STRING` (every signed number not containing `+`) yields at least
the two candidates the claim names — its numeric value and its original
text as a string — both as literal readings and as full argument-list
candidates. -/
theorem C3_number_two_candidates (tok : String)
    (h1 : matchesNumber tok = true) (h2 : matchesUnquoted tok = true) :
    Lit.num (parseNum tok) ∈ literalReadings tok ∧
    Lit.str tok ∈ literalReadings tok ∧
    [Lit.num (parseNum tok)] ∈ literalListCandidates [tok] ∧
    [Lit.str tok] ∈ literalListCandidates [tok] := by
  have hn : Lit.num (parseNum tok) ∈ literalReadings tok := by
    simp [literalReadings, h1]
  have hs : Lit.str tok ∈ literalReadings tok := by
    simp [literalReadings, h1, h2]
  have hl : literalListCandidates [tok] = (literalReadings tok).map (fun l => [l]) := rfl
  refine ⟨hn, hs, ?_, ?_⟩
  · rw [hl]; exact List.mem_map.mpr ⟨_, hn, rfl⟩
  · rw [hl]; exact List.mem_map.mpr ⟨_, hs, rfl⟩

/-- C3 witness: the token `1` satisfies both lexing hypotheses and gets
both candidates. -/
theorem C3_number_two_candidates_witness :
    Lit.num (parseNum "1") ∈ literalReadings "1" ∧
    Lit.str "1" ∈ literalReadings "1" ∧
    [Lit.num (parseNum "1")] ∈ literalListCandidates ["1"] ∧
    [Lit.str "1"] ∈ literalListCandidates ["1"] :=
  C3_number_two_candidates "1" (by decide) (by decide)

/-- C9: when the active target is not an `Interpretable` (reachable because
`use` accepts any variable value), an unqualified call does not fail on the
target: the loop skips it and the outcome is exactly that of binding
against the interpreter's own wrapper (`_iself`). -/
theorem C9_raw_target_skipped (w : World) (env : Env) (e : Expr)
    (ht : e.target = Option.none) (hni : env.target.isInterpretable = false) :
    resolveExpression w env e = .ok (bindReceiver w env (.wrapper .interpRef) e) := by
  simp only [resolveExpression, ht]
  have h1 : tryRecv w env e env.target [] = .error [] := by
    unfold tryRecv
    rw [hni]
    simp
  simp only [h1]
  unfold tryRecv
  simp only [PyVal.isInterpretable, if_true]
  cases hb : bindReceiver w env (.wrapper .interpRef) e with
  | ok b => simp
  | error er => simp

/-- C9 witness: a string active target (`use` of a plain value) is skipped
and `list` binds against the interpreter. -/
theorem C9_raw_target_skipped_witness :
    (PyVal.str "prim").isInterpretable = false ∧
    resolveExpression plainWorld ⟨[], .str "prim", [], []⟩
        ⟨"list", Option.none, Option.none, Option.none, Option.none⟩ =
      .ok (bindReceiver plainWorld ⟨[], .str "prim", [], []⟩ (.wrapper .interpRef)
        ⟨"list", Option.none, Option.none, Option.none, Option.none⟩) :=
  ⟨rfl, C9_raw_target_skipped plainWorld ⟨[], .str "prim", [], []⟩
    ⟨"list", Option.none, Option.none, Option.none, Option.none⟩ rfl rfl⟩

/-- C10: an identifier-reference argument — positional or named — that
resolves to a variable holding a wrapped capability object contributes the
underlying raw object (`var._obj`); every other stored value, and every
non-identifier literal, is passed exactly as stored, in both the
positional list and the named map. -/
theorem C10_wrapped_args_unwrapped (env : Env) (args : Option (List Lit))
    (kwargs : Option (List (String × Lit))) (res : List PyVal × List (String × PyVal))
    (h : resolveRefs env args kwargs = .ok res) (i : Nat) :
    ((∀ n u, (args.getD [])[i]? = some (.id n) →
        dictGet env.vars n = some (.wrapper u) → res.1[i]? = some u) ∧
     (∀ n u, (args.getD [])[i]? = some (.id n) → dictGet env.vars n = some u →
        u.isInterpretable = false → res.1[i]? = some u) ∧
     (∀ q, (args.getD [])[i]? = some (.num q) → res.1[i]? = some (.num q)) ∧
     (∀ s, (args.getD [])[i]? = some (.str s) → res.1[i]? = some (.str s))) ∧
    ((∀ k n u, (kwargs.getD [])[i]? = some (k, .id n) →
        dictGet env.vars n = some (.wrapper u) → res.2[i]? = some (k, u)) ∧
     (∀ k n u, (kwargs.getD [])[i]? = some (k, .id n) → dictGet env.vars n = some u →
        u.isInterpretable = false → res.2[i]? = some (k, u)) ∧
     (∀ k q, (kwargs.getD [])[i]? = some (k, .num q) → res.2[i]? = some (k, .num q)) ∧
     (∀ k s, (kwargs.getD [])[i]? = some (k, .str s) → res.2[i]? = some (k, .str s))) := by
  have hm := resolveRefs_ok_args h
  have hk := resolveRefs_ok_kwargs h
  refine ⟨⟨?_, ?_, ?_, ?_⟩, ⟨?_, ?_, ?_, ?_⟩⟩
  · intro n u hid hv
    obtain ⟨y, hy, hres⟩ := mapME_ok_get hm i _ hid
    simp only [resolveId, hv] at hy
    cases hy
    exact hres
  · intro n u hid hv hni
    obtain ⟨y, hy, hres⟩ := mapME_ok_get hm i _ hid
    rw [show (resolveId env (.id n)) = .ok u from ?_] at hy
    · cases hy; exact hres
    · simp only [resolveId, hv]
      cases u <;> simp_all [PyVal.isInterpretable]
  · intro q hq
    obtain ⟨y, hy, hres⟩ := mapME_ok_get hm i _ hq
    simp only [resolveId] at hy
    cases hy
    exact hres
  · intro s hs
    obtain ⟨y, hy, hres⟩ := mapME_ok_get hm i _ hs
    simp only [resolveId] at hy
    cases hy
    exact hres
  · intro k n u hid hv
    obtain ⟨y, hy, hres⟩ := mapME_ok_get hk i _ hid
    simp only [resolveId, hv] at hy
    cases hy
    exact hres
  · intro k n u hid hv hni
    obtain ⟨y, hy, hres⟩ := mapME_ok_get hk i _ hid
    have hri : resolveId env (.id n) = .ok u := by
      simp only [resolveId, hv]
      cases u <;> simp_all [PyVal.isInterpretable]
    simp only [hri] at hy
    cases hy
    exact hres
  · intro k q hq
    obtain ⟨y, hy, hres⟩ := mapME_ok_get hk i _ hq
    simp only [resolveId] at hy
    cases hy
    exact hres
  · intro k s hs
    obtain ⟨y, hy, hres⟩ := mapME_ok_get hk i _ hs
    simp only [resolveId] at hy
    cases hy
    exact hres

/-- The environment of the C10 witness: `a` holds a wrapped object, `b` a
plain string. -/
def refsEnv : Env :=
  ⟨[("a", .wrapper (.obj 3)), ("b", .str "s")], .wrapper .interpRef, [], []⟩

/-- C10 witness: positionally and by name, `a` is unwrapped to the raw
object, `b` passes as stored, and plain literals pass through. -/
theorem C10_wrapped_args_unwrapped_witness :
    resolveRefs refsEnv (some [.id "a", .id "b", .str "lit"])
        (some [("p", .id "a"), ("q", .id "b"), ("r", .str "lit")]) =
      .ok ([.obj 3, .str "s", .str "lit"],
           [("p", .obj 3), ("q", .str "s"), ("r", .str "lit")]) ∧
    ([.obj 3, .str "s", .str "lit"] : List PyVal)[0]? = some (.obj 3) ∧
    ([.obj 3, .str "s", .str "lit"] : List PyVal)[1]? = some (.str "s") ∧
    ([("p", .obj 3), ("q", .str "s"), ("r", .str "lit")] :
        List (String × PyVal))[0]? = some ("p", .obj 3) ∧
    ([("p", .obj 3), ("q", .str "s"), ("r", .str "lit")] :
        List (String × PyVal))[1]? = some ("q", .str "s") := by
  refine ⟨rfl, ?_, ?_, ?_, ?_⟩
  · exact ((C10_wrapped_args_unwrapped refsEnv
      (some [.id "a", .id "b", .str "lit"])
      (some [("p", .id "a"), ("q", .id "b"), ("r", .str "lit")])
      ([.obj 3, .str "s", .str "lit"],
       [("p", .obj 3), ("q", .str "s"), ("r", .str "lit")]) rfl 0).1).1
      "a" (.obj 3) rfl rfl
  · exact ((C10_wrapped_args_unwrapped refsEnv
      (some [.id "a", .id "b", .str "lit"])
      (some [("p", .id "a"), ("q", .id "b"), ("r", .str "lit")])
      ([.obj 3, .str "s", .str "lit"],
       [("p", .obj 3), ("q", .str "s"), ("r", .str "lit")]) rfl 1).1).2.1
      "b" (.str "s") rfl rfl rfl
  · exact ((C10_wrapped_args_unwrapped refsEnv
      (some [.id "a", .id "b", .str "lit"])
      (some [("p", .id "a"), ("q", .id "b"), ("r", .str "lit")])
      ([.obj 3, .str "s", .str "lit"],
       [("p", .obj 3), ("q", .str "s"), ("r", .str "lit")]) rfl 0).2).1
      "p" "a" (.obj 3) rfl rfl
  · exact ((C10_wrapped_args_unwrapped refsEnv
      (some [.id "a", .id "b", .str "lit"])
      (some [("p", .id "a"), ("q", .id "b"), ("r", .str "lit")])
      ([.obj 3, .str "s", .str "lit"],
       [("p", .obj 3), ("q", .str "s"), ("r", .str "lit")]) rfl 1).2).2.1
      "q" "b" (.str "s") rfl rfl rfl

theorem isArgMismatch_priority {e : InterpErr} (h : isArgMismatch e) :
    e.priority = 10 := by
  obtain ⟨m, rfl⟩ := h; rfl

theorem isUnknownMethod_priority {e : InterpErr} (h : isUnknownMethod e) :
    e.priority = 20 := by
  obtain ⟨m, rfl⟩ := h; rfl

/-- The failure classification of every recorded candidate triple. -/
theorem bindAll_failure_shape {w env exps rs} (hb : bindAll w env exps = .ok rs)
    {p m} (hmem : CandR.failure p m ∈ rs) : failureShape ⟨m, p⟩ := by
  obtain ⟨e, _, sr, hsr, hcand⟩ := bindAll_mem_origin hb _ hmem
  cases sr with
  | ok b => simp [candOf] at hcand
  | error er =>
      simp only [candOf, CandR.failure.injEq] at hcand
      have : er = ⟨m, p⟩ := by
        cases er
        simp only [InterpErr.mk.injEq]
        exact ⟨hcand.2.symm, hcand.1.symm⟩
      exact this ▸ resolveExpression_error_shape hsr

/-- The selection of `__call__`: when every candidate failed, the reported
failure is the earliest lowest-priority representative. -/
theorem interpExec_reports_earliestMin {w env exps rs p m}
    (hb : bindAll w env exps = .ok rs)
    (hmin : earliestMinKey rs = some (.failure p m)) :
    interpExec w env (.ok exps) = (env, .noBinding ⟨m, p⟩) := by
  have hh := head_sortCands rs
  rw [hmin] at hh
  unfold interpExec
  simp only [hb]
  cases hsc : sortCands rs with
  | nil => rw [hsc] at hh; cases hh
  | cons r rest =>
      rw [hsc] at hh
      simp only [List.head?_cons, Option.some.injEq] at hh
      subst hh
      simp only

/-- The failure one candidate surfaces (`raise ex[0]`) is the FIRST failure
recorded while iterating the receivers, i.e. the head of the `ex` list, not
its lowest-priority element. -/
theorem resolveExpression_error_head {w env e er}
    (h : resolveExpression w env e = .ok (.error er)) :
    (receiverFailures w env e).head? = some er := by
  cases he : e.target with
  | some t =>
      unfold receiverFailures
      rw [he, h]
      rfl
  | none =>
      simp only [resolveExpression, he] at h
      unfold receiverFailures
      rw [he]
      unfold attemptRecv
      cases hi : env.target.isInterpretable with
      | false =>
          -- target skipped: ex = [] then the interpreter wrapper's failure
          have h1 : tryRecv w env e env.target [] = .error [] := by
            unfold tryRecv; rw [hi]; simp
          simp only [h1] at h
          simp only [hi, Bool.false_eq_true, if_false]
          unfold tryRecv at h
          simp only [PyVal.isInterpretable, if_true] at h
          cases hb : bindReceiver w env (.wrapper .interpRef) e with
          | ok b => simp only [hb] at h; simp at h
          | error e2 =>
              simp only [hb] at h
              simp only [List.nil_append] at h
              cases h
              simp [PyVal.isInterpretable, hb]
      | true =>
          simp only [hi, if_true]
          have hw : ∃ u, env.target = PyVal.wrapper u := by
            cases henv : env.target <;> rw [henv] at hi <;>
              simp [PyVal.isInterpretable] at hi
            exact ⟨_, rfl⟩
          have h1 : tryRecv w env e env.target [] =
              (match bindReceiver w env env.target e with
               | .ok b => .ok b
               | .error er2 => .error [er2]) := by
            unfold tryRecv
            rw [hi]
            simp only [if_true]
            cases bindReceiver w env env.target e <;> simp
          cases hb : bindReceiver w env env.target e with
          | ok b =>
              rw [hb] at h1
              simp only [h1] at h
              simp at h
          | error e1 =>
              rw [hb] at h1
              simp only [h1] at h
              unfold tryRecv at h
              simp only [PyVal.isInterpretable, if_true] at h
              cases hb2 : bindReceiver w env (.wrapper .interpRef) e with
              | ok b => simp only [hb2] at h; simp at h
              | error e2 =>
                  simp only [hb2] at h
                  simp only [List.cons_append, List.nil_append] at h
                  cases h
                  simp [hb, hb2, PyVal.isInterpretable]

/-- C1 counterexample: parsing `drop_target x` yields candidates whose
failures are UnknownMethod (priority 20), ArgumentMismatch (priority 10)
and UnknownVariable (priority 100); no candidate succeeds, and the reported
failure is the ArgumentMismatch one — not the UnknownMethod one the claim
requires. -/
theorem C1_unknownMethod_loses_counterexample :
    bindAll plainWorld (Env.init []) dropTargetXCands =
      .ok [failureOf (unknownMethodErr "drop_target_x"),
           failureOf (argMismatchErr "drop_target"),
           failureOf (unknownVariableErr "x")] ∧
    interpExec plainWorld (Env.init []) (.ok dropTargetXCands) =
      (Env.init [], .noBinding (argMismatchErr "drop_target")) ∧
    isArgMismatch (argMismatchErr "drop_target") ∧
    ¬ isUnknownMethod (argMismatchErr "drop_target") := by
  refine ⟨rfl, rfl, ⟨"drop_target", rfl⟩, ?_⟩
  rintro ⟨m, hm⟩
  have hp := congrArg InterpErr.priority hm
  simp [argMismatchErr, unknownMethodErr] at hp

/-- C1 (amended): the priorities rank ArgumentMismatch (10) ABOVE
UnknownMethod and UnknownTarget (20), which outrank UnknownVariable (100),
and `__call__` surfaces the lowest value: whenever the candidates' recorded
failures include both an UnknownMethod and an ArgumentMismatch failure and
no candidate succeeds, the reported failure is an ArgumentMismatch failure
of priority 10 — not the UnknownMethod one. -/
theorem C1_failure_ranking (w : World) (env : Env) (exps : List Expr)
    (rs : List CandR) (hb : bindAll w env exps = .ok rs)
    (hAM : ∃ e, failureOf e ∈ rs ∧ isArgMismatch e)
    (hUM : ∃ e, failureOf e ∈ rs ∧ isUnknownMethod e)
    (hns : ∀ b, CandR.success b ∉ rs) :
    ∃ er, interpExec w env (.ok exps) = (env, .noBinding er) ∧
      isArgMismatch er ∧ er.priority = 10 := by
  obtain ⟨eAM, hmemAM, hkAM⟩ := hAM
  have hne : rs ≠ [] := fun h => by rw [h] at hmemAM; cases hmemAM
  cases hmk : earliestMinKey rs with
  | none => exact absurd (earliestMinKey_none hmk) hne
  | some x =>
      have hxmem := earliestMinKey_mem hmk
      have hxle := earliestMinKey_le hmk _ hmemAM
      cases x with
      | success b => exact absurd hxmem (hns b)
      | failure p m =>
          have hshape := bindAll_failure_shape hb hxmem
          have hk : candKey (failureOf eAM) = 10 := by
            simp [failureOf, candKey, isArgMismatch_priority hkAM]
          rw [hk] at hxle
          simp only [candKey] at hxle
          have hp10 : p = 10 := by
            rcases failureShape_priority hshape with h | h | h
            · exact h
            · have h2 : p = 20 := h
              omega
            · have h2 : p = 100 := h
              omega
          subst hp10
          exact ⟨⟨m, 10⟩, interpExec_reports_earliestMin hb hmk,
            failureShape_ten hshape rfl, rfl⟩

/-- C1 witness: the `drop_target x` scenario satisfies the hypotheses and
the reported failure is the priority-10 ArgumentMismatch. -/
theorem C1_failure_ranking_witness :
    ∃ er, interpExec plainWorld (Env.init []) (.ok dropTargetXCands) =
      (Env.init [], .noBinding er) ∧ isArgMismatch er ∧ er.priority = 10 := by
  apply C1_failure_ranking plainWorld (Env.init []) dropTargetXCands
      [failureOf (unknownMethodErr "drop_target_x"),
       failureOf (argMismatchErr "drop_target"),
       failureOf (unknownVariableErr "x")] rfl
  · exact ⟨argMismatchErr "drop_target", by simp, ⟨"drop_target", rfl⟩⟩
  · exact ⟨unknownMethodErr "drop_target_x", by simp, ⟨"drop_target_x", rfl⟩⟩
  · intro b hmem
    simp [failureOf] at hmem

/-- The environment whose active target is a wrapped object with no
methods. -/
def objTargetEnv : Env := ⟨[("t", .wrapper (.obj 0))], .wrapper (.obj 0), [], []⟩

/-- C2 counterexample: with an active target wrapping a method-less object,
every candidate of `delete 1,2` records the target's UnknownMethod failure
(priority 20) first and the interpreter's ArgumentMismatch failure
(priority 10) second; the failure with the lowest priority among all
receiver attempts is the priority-10 one, yet the statement reports the
priority-20 UnknownMethod failure (`raise ex[0]` surfaces the first, and
the `sorted(ex, ...)` result is discarded). -/
theorem C2_first_receiver_failure_counterexample :
    receiverFailures plainWorld objTargetEnv
        ⟨"delete", some [.str "1", .str "2"], Option.none, Option.none, Option.none⟩ =
      [unknownMethodErr "delete", argMismatchErr "delete"] ∧
    ⟨"delete", some [.str "1", .str "2"], Option.none, Option.none, Option.none⟩ ∈
      deleteOneTwoCands ∧
    (argMismatchErr "delete").priority < (unknownMethodErr "delete").priority ∧
    interpExec plainWorld objTargetEnv (.ok deleteOneTwoCands) =
      (objTargetEnv, .noBinding (unknownMethodErr "delete")) := by
  refine ⟨rfl, ?_, by decide, rfl⟩
  have h : deleteOneTwoCands =
      [⟨"delete", some [.num (parseNum "1"), .num (parseNum "2")], Option.none, Option.none, Option.none⟩,
       ⟨"delete", some [.str "1", .num (parseNum "2")], Option.none, Option.none, Option.none⟩,
       ⟨"delete", some [.num (parseNum "1"), .str "2"], Option.none, Option.none, Option.none⟩,
       ⟨"delete", some [.str "1", .str "2"], Option.none, Option.none, Option.none⟩] := rfl
  rw [h]
  simp

/-- C2 (amended): each failing candidate is represented by the FIRST
failure its receiver loop recorded (the head of `ex`, later receivers'
lower-priority failures being discarded); across candidates, the statement
reports the earliest representative of lowest priority (ties broken by
candidate generation order). -/
theorem C2_earliest_min_of_first_failures (w : World) (env : Env)
    (exps : List Expr) (rs : List CandR)
    (hb : bindAll w env exps = .ok rs) (hne : rs ≠ [])
    (hns : ∀ b, CandR.success b ∉ rs) :
    ∃ p m, earliestMinKey rs = some (.failure p m) ∧
      interpExec w env (.ok exps) = (env, .noBinding ⟨m, p⟩) ∧
      (∀ r ∈ rs, p ≤ candKey r) ∧
      (∀ e ∈ exps, ∀ er, resolveExpression w env e = .ok (.error er) →
        (receiverFailures w env e).head? = some er) := by
  cases hmk : earliestMinKey rs with
  | none => exact absurd (earliestMinKey_none hmk) hne
  | some x =>
      have hxmem := earliestMinKey_mem hmk
      cases x with
      | success b => exact absurd hxmem (hns b)
      | failure p m =>
          refine ⟨p, m, rfl, interpExec_reports_earliestMin hb hmk, ?_, ?_⟩
          · intro r hr
            simpa [candKey] using earliestMinKey_le hmk r hr
          · intro e _ er h
            exact resolveExpression_error_head h

/-- C2 witness: the `delete 1,2` scenario with a method-less active
target. -/
theorem C2_earliest_min_of_first_failures_witness :
    ∃ p m, earliestMinKey
        [failureOf (unknownMethodErr "delete"), failureOf (unknownMethodErr "delete"),
         failureOf (unknownMethodErr "delete"), failureOf (unknownMethodErr "delete")] =
        some (.failure p m) ∧
      interpExec plainWorld objTargetEnv (.ok deleteOneTwoCands) =
        (objTargetEnv, .noBinding ⟨m, p⟩) ∧
      (∀ r ∈ [failureOf (unknownMethodErr "delete"), failureOf (unknownMethodErr "delete"),
              failureOf (unknownMethodErr "delete"), failureOf (unknownMethodErr "delete")],
        p ≤ candKey r) ∧
      (∀ e ∈ deleteOneTwoCands, ∀ er,
        resolveExpression plainWorld objTargetEnv e = .ok (.error er) →
        (receiverFailures plainWorld objTargetEnv e).head? = some er) := by
  apply C2_earliest_min_of_first_failures plainWorld objTargetEnv deleteOneTwoCands _ rfl
  · intro h
    have := congrArg List.length h
    simp [failureOf] at this
  · intro b hmem
    simp [failureOf, candOf] at hmem

/-! ## Receiver-precedence helper lemmas -/

theorem resolve_explicit_absent {w env e t} (hT : e.target = some t)
    (hv : dictGet env.vars t = Option.none) :
    resolveExpression w env e = .ok (.error (unknownTargetErr t)) := by
  simp only [resolveExpression, hT, hv]

theorem resolve_explicit_only_receiver {w env e t u} (hT : e.target = some t)
    (hv : dictGet env.vars t = some (.wrapper u)) :
    resolveExpression w env e = .ok (bindReceiver w env (.wrapper u) e) := by
  simp only [resolveExpression, hT, hv, bindReceiver]
  cases hr : resolveRefs env e.args e.kwargs with
  | error er => simp
  | ok ak => obtain ⟨a, k⟩ := ak; simp

theorem resolve_target_ok {w env e b} (hT : e.target = Option.none)
    (hi : env.target.isInterpretable = true)
    (hb : bindReceiver w env env.target e = .ok b) :
    resolveExpression w env e = .ok (.ok b) := by
  simp only [resolveExpression, hT]
  have h1 : tryRecv w env e env.target [] = .ok b := by
    unfold tryRecv
    rw [hi, hb]
    simp
  simp only [h1]

theorem resolve_target_err_iself_ok {w env e e1 b} (hT : e.target = Option.none)
    (hi : env.target.isInterpretable = true)
    (hb1 : bindReceiver w env env.target e = .error e1)
    (hb2 : bindReceiver w env (.wrapper .interpRef) e = .ok b) :
    resolveExpression w env e = .ok (.ok b) := by
  simp only [resolveExpression, hT]
  have h1 : tryRecv w env e env.target [] = .error [e1] := by
    unfold tryRecv
    rw [hi, hb1]
    simp
  have h2 : tryRecv w env e (PyVal.wrapper .interpRef) [e1] = .ok b := by
    unfold tryRecv
    simp only [PyVal.isInterpretable, if_true]
    rw [hb2]
  simp only [h1, h2]

theorem resolve_target_err_iself_err {w env e e1 e2} (hT : e.target = Option.none)
    (hi : env.target.isInterpretable = true)
    (hb1 : bindReceiver w env env.target e = .error e1)
    (hb2 : bindReceiver w env (.wrapper .interpRef) e = .error e2) :
    resolveExpression w env e = .ok (.error e1) := by
  simp only [resolveExpression, hT]
  have h1 : tryRecv w env e env.target [] = .error [e1] := by
    unfold tryRecv
    rw [hi, hb1]
    simp
  have h2 : tryRecv w env e (PyVal.wrapper .interpRef) [e1] = .error [e1, e2] := by
    unfold tryRecv
    simp only [PyVal.isInterpretable, if_true]
    rw [hb2]
    rfl
  simp only [h1, h2]

theorem resolve_raw_target {w env e} (hT : e.target = Option.none)
    (hi : env.target.isInterpretable = false) :
    resolveExpression w env e = .ok (bindReceiver w env (.wrapper .interpRef) e) := by
  simp only [resolveExpression, hT]
  have h1 : tryRecv w env e env.target [] = .error [] := by
    unfold tryRecv
    rw [hi]
    simp
  simp only [h1]
  unfold tryRecv
  simp only [PyVal.isInterpretable, if_true]
  cases hb : bindReceiver w env (.wrapper .interpRef) e with
  | ok b => simp
  | error er => simp

/-- A wrapped object with no callable attribute named `m` (and `m` not the
wrapper's `options` built-in) fails method lookup with the priority-20
failure. -/
theorem wrapperBind_noCallable {w u m a k asg} (h : noCallableAttr w u m)
    (hm : wrapperBuiltin.contains m = false) :
    wrapperBind w u m a k asg = .error (unknownMethodErr m) := by
  unfold wrapperBind
  cases hl : (attrsOf w u).attrs.lookup m with
  | none => rw [hm]; simp
  | some a2 =>
      cases a2 with
      | callable ps => exact absurd hl (h ps)
      | noncallable => simp

/-- The unqualified `list` statement. -/
def listExpr : Expr := ⟨"list", Option.none, Option.none, Option.none, Option.none⟩

/-- C4 counterexample: with the active target set to a wrapped object that
has no `list` attribute, the unqualified `list` statement binds against the
interpreter's own built-ins — the receiver is the interpreter object even
though an active target IS set, contradicting "built-in operations are the
receiver only when there is no explicit target and no active target". -/
theorem C4_builtin_despite_active_target :
    objTargetEnv.target = .wrapper (.obj 0) ∧
    objTargetEnv.target ≠ .wrapper .interpRef ∧
    resolveExpression plainWorld objTargetEnv listExpr =
      .ok (.ok ⟨.objMeth .interpRef [], "list", [], [], Option.none⟩) :=
  ⟨rfl, by decide, rfl⟩

/-- C4 (amended): an explicit target is resolved via the variable map
(UnknownTarget when absent) and is then the only receiver tried; with no
explicit target the active target is tried FIRST, and the interpreter's
built-ins are tried as a fallback whenever the active target's bind fails
(so they can be the receiver even when an active target is set), the
target's failure being the one surfaced if both fail. -/
theorem C4_receiver_precedence (w : World) (env : Env) (e : Expr) :
    (∀ t, e.target = some t → dictGet env.vars t = Option.none →
      resolveExpression w env e = .ok (.error (unknownTargetErr t))) ∧
    (∀ t u, e.target = some t → dictGet env.vars t = some (.wrapper u) →
      resolveExpression w env e = .ok (bindReceiver w env (.wrapper u) e)) ∧
    (∀ b, e.target = Option.none → env.target.isInterpretable = true →
      bindReceiver w env env.target e = .ok b →
      resolveExpression w env e = .ok (.ok b)) ∧
    (∀ e1, e.target = Option.none → env.target.isInterpretable = true →
      bindReceiver w env env.target e = .error e1 →
      resolveExpression w env e =
        .ok (match bindReceiver w env (.wrapper .interpRef) e with
             | .ok b => .ok b
             | .error _ => .error e1)) := by
  refine ⟨?_, ?_, ?_, ?_⟩
  · intro t hT hv
    exact resolve_explicit_absent hT hv
  · intro t u hT hv
    exact resolve_explicit_only_receiver hT hv
  · intro b hT hi hb
    exact resolve_target_ok hT hi hb
  · intro e1 hT hi hb1
    cases hb2 : bindReceiver w env (.wrapper .interpRef) e with
    | ok b => exact resolve_target_err_iself_ok hT hi hb1 hb2
    | error e2 => exact resolve_target_err_iself_err hT hi hb1 hb2

/-- C4 witness: the fallback clause at the concrete `list` scenario — the
active target's bind fails with UnknownMethod and the interpreter's
built-ins bind. -/
theorem C4_receiver_precedence_witness :
    resolveExpression plainWorld objTargetEnv listExpr =
      .ok (match bindReceiver plainWorld objTargetEnv (.wrapper .interpRef) listExpr with
           | .ok b => .ok b
           | .error _ => .error (unknownMethodErr "list")) :=
  (C4_receiver_precedence plainWorld objTargetEnv listExpr).2.2.2
    (unknownMethodErr "list") rfl rfl rfl

/-! ## C5: result storage -/

/-- No value equals its own wrapper. -/
theorem wrapper_ne (r : PyVal) : PyVal.wrapper r ≠ r := by
  intro h
  have hs := congrArg sizeOf h
  simp at hs

/-- A world whose object 0 exposes a zero-parameter `f` returning the
number 5. -/
def numRetWorld : World :=
  ⟨fun _ => ⟨"NumApp", [("f", .callable [])],
     fun m _ => if m = "f" then .ok (.num 5) else .error (.py "AttributeError")⟩,
   fun _ => emptyObj⟩

/-- An environment with `v` holding the wrapped object 0. -/
def wrappedAppEnv : Env := ⟨[("v", .wrapper (.obj 0))], .wrapper .interpRef, [], []⟩

/-- C5 counterexample: `using v, f as x` executes `f`, which returns the
number 5; the claim says a number result is stored verbatim, but the code's
`isinstance(r, (str, list, dict, set))` test does not include numbers, so
`x` receives `InterpretableWrapper(5.0)`, not `5.0`. -/
theorem C5_number_result_wrapped :
    (interpExec numRetWorld wrappedAppEnv
        (.ok [⟨"f", Option.none, Option.none, some "v", some "x"⟩])).2 = .success ∧
    dictGet (interpExec numRetWorld wrappedAppEnv
        (.ok [⟨"f", Option.none, Option.none, some "v", some "x"⟩])).1.vars "x" =
      some (.wrapper (.num 5)) ∧
    PyVal.wrapper (.num 5) ≠ PyVal.num 5 :=
  ⟨rfl, rfl, wrapper_ne (.num 5)⟩

/-- C5 (amended): when a statement with an assignment executes
successfully, `str`, `list`, `dict`, `set` and `Interpretable` results are
stored verbatim, and every other result — numbers included — is wrapped as
a capability object (`InterpretableWrapper`) before storing: the stored
value equals the raw result exactly when the result is of one of those five
shapes. -/
theorem C5_storage_rule (w : World) (env : Env) (b : Bound) (env' : Env)
    (n : String) (h : callExpression w env b = (env', .success))
    (hassign : b.assignment = some n) :
    ∃ envr r, execBound w env b = .ok envr r ∧
      env' = { envr with vars := dictSet envr.vars n (storeVal r) } ∧
      (storeVal r = r ↔ ((∃ s, r = .str s) ∨ (∃ xs, r = .list xs) ∨
        (∃ ks vs, r = .dict ks vs) ∨ (∃ xs, r = .pset xs) ∨
        (∃ u, r = .wrapper u))) := by
  unfold callExpression at h
  cases he : execBound w env b with
  | halt => rw [he] at h; cases h
  | exc e2 er => rw [he] at h; cases h
  | pyexc e2 ms => rw [he] at h; cases h
  | ok envr r =>
      rw [he, hassign] at h
      simp only [Prod.mk.injEq] at h
      refine ⟨envr, r, rfl, h.1.symm, ?_⟩
      constructor
      · intro hst
        cases r with
        | str s => exact Or.inl ⟨s, rfl⟩
        | list xs => exact Or.inr (Or.inl ⟨xs, rfl⟩)
        | dict ks vs => exact Or.inr (Or.inr (Or.inl ⟨ks, vs, rfl⟩))
        | pset xs => exact Or.inr (Or.inr (Or.inr (Or.inl ⟨xs, rfl⟩)))
        | wrapper u => exact Or.inr (Or.inr (Or.inr (Or.inr ⟨u, rfl⟩)))
        | num q => exact absurd hst (wrapper_ne _)
        | none => exact absurd hst (wrapper_ne _)
        | obj i => exact absurd hst (wrapper_ne _)
        | interpRef => exact absurd hst (wrapper_ne _)
      · rintro (⟨s, rfl⟩ | ⟨xs, rfl⟩ | ⟨ks, vs, rfl⟩ | ⟨xs, rfl⟩ | ⟨u, rfl⟩) <;> rfl

/-- C5 witness: the `using v, f as x` scenario — `f` returns the number 5,
which is stored wrapped (the verbatim condition fails for a number). -/
theorem C5_storage_rule_witness :
    ∃ envr r, execBound numRetWorld wrappedAppEnv
        ⟨.objMeth (.obj 0) [], "f", [], [], some "x"⟩ = .ok envr r ∧
      (interpExec numRetWorld wrappedAppEnv
        (.ok [⟨"f", Option.none, Option.none, some "v", some "x"⟩])).1 =
        { envr with vars := dictSet envr.vars "x" (storeVal r) } ∧
      (storeVal r = r ↔ ((∃ s, r = .str s) ∨ (∃ xs, r = .list xs) ∨
        (∃ ks vs, r = .dict ks vs) ∨ (∃ xs, r = .pset xs) ∨
        (∃ u, r = .wrapper u))) :=
  C5_storage_rule numRetWorld wrappedAppEnv
    ⟨.objMeth (.obj 0) [], "f", [], [], some "x"⟩ _ "x" rfl rfl

/-! ## C6: `drop target` -/

/-- The bound call `drop target` produces: the interpreter's `drop_target`
method with no arguments. -/
def dropTargetBound : Bound :=
  ⟨.objMeth .interpRef [], "drop_target", [], [], Option.none⟩

/-- Selection analogue of `interpExec_reports_earliestMin` for a successful
head. -/
theorem interpExec_executes_earliestMin {w env exps rs b}
    (hb : bindAll w env exps = .ok rs)
    (hmin : earliestMinKey rs = some (.success b)) :
    interpExec w env (.ok exps) = callExpression w env b := by
  have hh := head_sortCands rs
  rw [hmin] at hh
  unfold interpExec
  simp only [hb]
  cases hsc : sortCands rs with
  | nil => rw [hsc] at hh; cases hh
  | cons r rest =>
      rw [hsc] at hh
      simp only [List.head?_cons, Option.some.injEq] at hh
      subst hh
      simp only

/-- The `drop target` candidates from any environment whose active target
does not shadow a callable `drop_target` or `drop`: the joined-method
candidate binds the interpreter's `drop_target`, the `drop`-with-argument
candidates fail. -/
theorem dropTarget_core (w : World) (env : Env)
    (hshadow : ∀ u, env.target = .wrapper u → u ≠ .interpRef →
      noCallableAttr w u "drop_target" ∧ noCallableAttr w u "drop") :
    interpCall w env "drop target" (.ok dropTargetCands) =
      ({ env with target := .wrapper .interpRef,
                  session := env.session ++ ["drop target"] }, .success) := by
  -- candidate 1 resolves to the interpreter's drop_target
  have hDT : resolveExpression w env
      ⟨"drop_target", Option.none, Option.none, Option.none, Option.none⟩ =
      .ok (.ok dropTargetBound) := by
    have hIself : bindReceiver w env (.wrapper .interpRef)
        ⟨"drop_target", Option.none, Option.none, Option.none, Option.none⟩ =
        .ok dropTargetBound := rfl
    cases htc : env.target with
    | wrapper u =>
        by_cases hu : u = PyVal.interpRef
        · subst hu
          exact resolve_target_ok rfl (by rw [htc]; rfl) (by rw [htc]; exact hIself)
        · have hb1 : bindReceiver w env env.target
              ⟨"drop_target", Option.none, Option.none, Option.none, Option.none⟩ =
              .error (unknownMethodErr "drop_target") := by
            rw [htc]
            unfold bindReceiver
            simp only [resolveRefs, Option.getD, mapME]
            exact wrapperBind_noCallable (hshadow u htc hu).1 rfl
          exact resolve_target_err_iself_ok rfl (by rw [htc]; rfl) hb1 hIself
    | str s => rw [resolve_raw_target rfl (by rw [htc]; rfl), hIself]
    | num q => rw [resolve_raw_target rfl (by rw [htc]; rfl), hIself]
    | list xs => rw [resolve_raw_target rfl (by rw [htc]; rfl), hIself]
    | pset xs => rw [resolve_raw_target rfl (by rw [htc]; rfl), hIself]
    | dict ks vs => rw [resolve_raw_target rfl (by rw [htc]; rfl), hIself]
    | none => rw [resolve_raw_target rfl (by rw [htc]; rfl), hIself]
    | obj i => rw [resolve_raw_target rfl (by rw [htc]; rfl), hIself]
    | interpRef => rw [resolve_raw_target rfl (by rw [htc]; rfl), hIself]
  -- candidate 2 (`drop "target"`) fails everywhere with UnknownMethod
  have hC2 : resolveExpression w env
      ⟨"drop", some [.str "target"], Option.none, Option.none, Option.none⟩ =
      .ok (.error (unknownMethodErr "drop")) := by
    have hIs : bindReceiver w env (.wrapper .interpRef)
        ⟨"drop", some [.str "target"], Option.none, Option.none, Option.none⟩ =
        .error (unknownMethodErr "drop") := rfl
    cases htc : env.target with
    | wrapper u =>
        by_cases hu : u = PyVal.interpRef
        · subst hu
          exact resolve_target_err_iself_err rfl (by rw [htc]; rfl)
            (by rw [htc]; exact hIs) hIs
        · have hb1 : bindReceiver w env env.target
              ⟨"drop", some [.str "target"], Option.none, Option.none, Option.none⟩ =
              .error (unknownMethodErr "drop") := by
            rw [htc]
            unfold bindReceiver
            simp only [resolveRefs, Option.getD, mapME, resolveId]
            exact wrapperBind_noCallable (hshadow u htc hu).2 rfl
          exact resolve_target_err_iself_err rfl (by rw [htc]; rfl) hb1 hIs
    | str s => rw [resolve_raw_target rfl (by rw [htc]; rfl), hIs]
    | num q => rw [resolve_raw_target rfl (by rw [htc]; rfl), hIs]
    | list xs => rw [resolve_raw_target rfl (by rw [htc]; rfl), hIs]
    | pset xs => rw [resolve_raw_target rfl (by rw [htc]; rfl), hIs]
    | dict ks vs => rw [resolve_raw_target rfl (by rw [htc]; rfl), hIs]
    | none => rw [resolve_raw_target rfl (by rw [htc]; rfl), hIs]
    | obj i => rw [resolve_raw_target rfl (by rw [htc]; rfl), hIs]
    | interpRef => rw [resolve_raw_target rfl (by rw [htc]; rfl), hIs]
  -- candidate 3 (`drop Id(target)`) fails with some binding failure
  have hC3 : ∃ er3, resolveExpression w env
      ⟨"drop", some [.id "target"], Option.none, Option.none, Option.none⟩ =
      .ok (.error er3) := by
    cases hv : dictGet env.vars "target" with
    | none =>
        -- the identifier does not resolve: UnknownVariable on every receiver
        have hbr : ∀ u', bindReceiver w env (.wrapper u')
            ⟨"drop", some [.id "target"], Option.none, Option.none, Option.none⟩ =
            .error (unknownVariableErr "target") := by
          intro u'
          unfold bindReceiver
          simp only [resolveRefs, Option.getD, mapME, resolveId, hv]
        refine ⟨unknownVariableErr "target", ?_⟩
        cases htc : env.target with
        | wrapper u =>
            exact resolve_target_err_iself_err rfl (by rw [htc]; rfl)
              (by rw [htc]; exact hbr u) (hbr _)
        | str s => rw [resolve_raw_target rfl (by rw [htc]; rfl), hbr]
        | num q => rw [resolve_raw_target rfl (by rw [htc]; rfl), hbr]
        | list xs => rw [resolve_raw_target rfl (by rw [htc]; rfl), hbr]
        | pset xs => rw [resolve_raw_target rfl (by rw [htc]; rfl), hbr]
        | dict ks vs => rw [resolve_raw_target rfl (by rw [htc]; rfl), hbr]
        | none => rw [resolve_raw_target rfl (by rw [htc]; rfl), hbr]
        | obj i => rw [resolve_raw_target rfl (by rw [htc]; rfl), hbr]
        | interpRef => rw [resolve_raw_target rfl (by rw [htc]; rfl), hbr]
    | some v =>
        -- the identifier resolves, but no receiver has a callable `drop`
        have hIs : bindReceiver w env (.wrapper .interpRef)
            ⟨"drop", some [.id "target"], Option.none, Option.none, Option.none⟩ =
            .error (unknownMethodErr "drop") := by
          unfold bindReceiver
          simp only [resolveRefs, Option.getD, mapME, resolveId, hv]
          cases v <;> rfl
        refine ⟨unknownMethodErr "drop", ?_⟩
        cases htc : env.target with
        | wrapper u =>
            by_cases hu : u = PyVal.interpRef
            · subst hu
              exact resolve_target_err_iself_err rfl (by rw [htc]; rfl)
                (by rw [htc]; exact hIs) hIs
            · have hb1 : bindReceiver w env env.target
                  ⟨"drop", some [.id "target"], Option.none, Option.none, Option.none⟩ =
                  .error (unknownMethodErr "drop") := by
                rw [htc]
                unfold bindReceiver
                simp only [resolveRefs, Option.getD, mapME, resolveId, hv]
                cases v <;> exact wrapperBind_noCallable (hshadow u htc hu).2 rfl
              exact resolve_target_err_iself_err rfl (by rw [htc]; rfl) hb1 hIs
        | str s => rw [resolve_raw_target rfl (by rw [htc]; rfl), hIs]
        | num q => rw [resolve_raw_target rfl (by rw [htc]; rfl), hIs]
        | list xs => rw [resolve_raw_target rfl (by rw [htc]; rfl), hIs]
        | pset xs => rw [resolve_raw_target rfl (by rw [htc]; rfl), hIs]
        | dict ks vs => rw [resolve_raw_target rfl (by rw [htc]; rfl), hIs]
        | none => rw [resolve_raw_target rfl (by rw [htc]; rfl), hIs]
        | obj i => rw [resolve_raw_target rfl (by rw [htc]; rfl), hIs]
        | interpRef => rw [resolve_raw_target rfl (by rw [htc]; rfl), hIs]
  obtain ⟨er3, hC3eq⟩ := hC3
  have hball : bindAll w env dropTargetCands =
      .ok [.success dropTargetBound,
           .failure (unknownMethodErr "drop").priority (unknownMethodErr "drop").msg,
           .failure er3.priority er3.msg] := by
    simp only [dropTargetCands, bindAll, hDT, hC2, hC3eq, candOf]
  have hmin : earliestMinKey
      [CandR.success dropTargetBound,
       .failure (unknownMethodErr "drop").priority (unknownMethodErr "drop").msg,
       .failure er3.priority er3.msg] = some (.success dropTargetBound) := by
    simp only [earliestMinKey, candKey]
    split <;> simp
  have hex : interpExec w env (.ok dropTargetCands) =
      ({ env with target := .wrapper .interpRef }, .success) := by
    rw [interpExec_executes_earliestMin hball hmin]
    rfl
  unfold interpCall
  rw [hex]

/-- C6 counterexample: from the initial environment, executing
`drop target` twice does not yield exactly the state of executing it once:
each successful execution appends the statement to the session log, so the
Environments differ in their logs. -/
theorem C6_not_idempotent_on_log :
    (interpCall plainWorld (Env.init []) "drop target" (.ok dropTargetCands)).1.session
      = ["drop target"] ∧
    (interpCall plainWorld
        (interpCall plainWorld (Env.init []) "drop target" (.ok dropTargetCands)).1
        "drop target" (.ok dropTargetCands)).1.session
      = ["drop target", "drop target"] ∧
    (interpCall plainWorld
        (interpCall plainWorld (Env.init []) "drop target" (.ok dropTargetCands)).1
        "drop target" (.ok dropTargetCands)).1 ≠
      (interpCall plainWorld (Env.init []) "drop target" (.ok dropTargetCands)).1 := by
  refine ⟨rfl, rfl, ?_⟩
  intro h
  have h2 := congrArg Env.session h
  rw [show (interpCall plainWorld
        (interpCall plainWorld (Env.init []) "drop target" (.ok dropTargetCands)).1
        "drop target" (.ok dropTargetCands)).1.session
      = ["drop target", "drop target"] from rfl,
     show (interpCall plainWorld (Env.init []) "drop target"
        (.ok dropTargetCands)).1.session = ["drop target"] from rfl] at h2
  simp at h2

/-- C6 (amended): from every environment whose active target does not
itself expose a callable `drop_target` or `drop`, `drop target` succeeds
and sets the active target to the interpreter, leaving the variables
unchanged; the effect on (variables, active target) is idempotent, but
each successful execution appends `"drop target"` to the statement log, so
the state after two executions differs from the state after one exactly by
that extra log entry. -/
theorem C6_drop_target_idempotent_mod_log (w : World) (env : Env)
    (hshadow : ∀ u, env.target = .wrapper u → u ≠ .interpRef →
      noCallableAttr w u "drop_target" ∧ noCallableAttr w u "drop") :
    interpCall w env "drop target" (.ok dropTargetCands) =
      ({ env with target := .wrapper .interpRef,
                  session := env.session ++ ["drop target"] }, .success) ∧
    interpCall w
        (interpCall w env "drop target" (.ok dropTargetCands)).1
        "drop target" (.ok dropTargetCands) =
      ({ env with target := .wrapper .interpRef,
                  session := (env.session ++ ["drop target"]) ++ ["drop target"] },
       .success) := by
  have h1 := dropTarget_core w env hshadow
  refine ⟨h1, ?_⟩
  rw [h1]
  exact dropTarget_core w _ (by intro u hu hne; cases hu; exact absurd rfl hne)

/-- C6 witness: the amended behaviour at the initial environment. -/
theorem C6_drop_target_idempotent_mod_log_witness :
    interpCall plainWorld (Env.init []) "drop target" (.ok dropTargetCands) =
      ({ Env.init [] with target := .wrapper .interpRef,
                          session := [] ++ ["drop target"] }, .success) ∧
    interpCall plainWorld
        (interpCall plainWorld (Env.init []) "drop target" (.ok dropTargetCands)).1
        "drop target" (.ok dropTargetCands) =
      ({ Env.init [] with target := .wrapper .interpRef,
                          session := ([] ++ ["drop target"]) ++ ["drop target"] },
       .success) :=
  C6_drop_target_idempotent_mod_log plainWorld (Env.init [])
    (by intro u hu hne; cases hu; exact absurd rfl hne)

/-! ## C7: `delete` -/

theorem unknownMethodErr_priority (m : String) : (unknownMethodErr m).priority = 20 := rfl

theorem argMismatchErr_priority (m : String) : (argMismatchErr m).priority = 10 := rfl

theorem unknownVariableErr_priority (n : String) : (unknownVariableErr n).priority = 100 := rfl

theorem lookup_none_of_ne {β : Type} (a : String) :
    ∀ (l : List (String × β)), (∀ p ∈ l, a ≠ p.1) → List.lookup a l = Option.none := by
  intro l
  induction l with
  | nil => intro h; rfl
  | cons hd tl ih =>
      intro h
      obtain ⟨k, v⟩ := hd
      have h1 : (a == k) = false :=
        beq_eq_false_iff_ne.mpr (h (k, v) (List.mem_cons_self _ _))
      simp only [List.lookup, h1]
      exact ih (fun p hp => h p (List.mem_cons_of_mem _ hp))

/-- No interpreter attribute is named `delete_<z>`: the joined method name
of a two-word `delete <z>` statement never hits an interpreter method. -/
theorem interpAttrs_no_delete_join (z : String) :
    List.lookup ("delete_" ++ z) interpAttrs = Option.none := by
  apply lookup_none_of_ne
  intro p hp
  fin_cases hp <;>
    (intro h; have h2 := congrArg String.data h;
     rw [String.data_append] at h2; simp at h2)

theorem delete_join_ne_options (z : String) : ("delete_" ++ z) ≠ "options" := by
  intro h
  have h2 := congrArg String.data h
  rw [String.data_append] at h2
  simp at h2

theorem delete_join_not_builtin (z : String) :
    wrapperBuiltin.contains ("delete_" ++ z) = false := by
  simp only [wrapperBuiltin, List.contains, List.any, List.elem]
  have h1 : (("delete_" ++ z) == "options") = false :=
    beq_eq_false_iff_ne.mpr (delete_join_ne_options z)
  simp [h1]

theorem noCallableAttr_interp_delete_join (w : World) (z : String) :
    noCallableAttr w PyVal.interpRef ("delete_" ++ z) := by
  intro ps h
  rw [show (attrsOf w PyVal.interpRef).attrs = interpAttrs from rfl,
     interpAttrs_no_delete_join z] at h
  cases h

/-- The joined-method candidate `delete_<z>` fails with the priority-20
unknown-method failure on every receiver: the interpreter has no such
attribute and the (shadow-free) active target no callable of that name. -/
theorem resolve_delete_join_unknown (w : World) (env : Env) (z : String)
    (hshadow : ∀ u, env.target = .wrapper u → u ≠ .interpRef →
      noCallableAttr w u ("delete_" ++ z)) :
    resolveExpression w env
      ⟨"delete_" ++ z, Option.none, Option.none, Option.none, Option.none⟩ =
      .ok (.error (unknownMethodErr ("delete_" ++ z))) := by
  have hIs : bindReceiver w env (.wrapper .interpRef)
      ⟨"delete_" ++ z, Option.none, Option.none, Option.none, Option.none⟩ =
      .error (unknownMethodErr ("delete_" ++ z)) := by
    unfold bindReceiver
    simp only [resolveRefs, Option.getD, mapME]
    exact wrapperBind_noCallable (noCallableAttr_interp_delete_join w z)
      (delete_join_not_builtin z)
  cases htc : env.target with
  | wrapper u =>
      by_cases hu : u = PyVal.interpRef
      · subst hu
        exact resolve_target_err_iself_err rfl (by rw [htc]; rfl)
          (by rw [htc]; exact hIs) hIs
      · have hb1 : bindReceiver w env env.target
            ⟨"delete_" ++ z, Option.none, Option.none, Option.none, Option.none⟩ =
            .error (unknownMethodErr ("delete_" ++ z)) := by
          rw [htc]
          unfold bindReceiver
          simp only [resolveRefs, Option.getD, mapME]
          exact wrapperBind_noCallable (hshadow u htc hu) (delete_join_not_builtin z)
        exact resolve_target_err_iself_err rfl (by rw [htc]; rfl) hb1 hIs
  | str s => rw [resolve_raw_target rfl (by rw [htc]; rfl), hIs]
  | num q => rw [resolve_raw_target rfl (by rw [htc]; rfl), hIs]
  | list xs => rw [resolve_raw_target rfl (by rw [htc]; rfl), hIs]
  | pset xs => rw [resolve_raw_target rfl (by rw [htc]; rfl), hIs]
  | dict ks vs => rw [resolve_raw_target rfl (by rw [htc]; rfl), hIs]
  | none => rw [resolve_raw_target rfl (by rw [htc]; rfl), hIs]
  | obj i => rw [resolve_raw_target rfl (by rw [htc]; rfl), hIs]
  | interpRef => rw [resolve_raw_target rfl (by rw [htc]; rfl), hIs]

/-- The `delete Id(z)` candidate with `z` absent fails with the
priority-100 unknown-variable failure on every receiver (`refs()` raises
before any method lookup). -/
theorem resolve_delete_id_absent (w : World) (env : Env) (z : String)
    (hv : dictGet env.vars z = Option.none) :
    resolveExpression w env
      ⟨"delete", some [.id z], Option.none, Option.none, Option.none⟩ =
      .ok (.error (unknownVariableErr z)) := by
  have hbr : ∀ u', bindReceiver w env (.wrapper u')
      ⟨"delete", some [.id z], Option.none, Option.none, Option.none⟩ =
      .error (unknownVariableErr z) := by
    intro u'
    unfold bindReceiver
    simp only [resolveRefs, Option.getD, mapME, resolveId, hv]
  cases htc : env.target with
  | wrapper u =>
      exact resolve_target_err_iself_err rfl (by rw [htc]; rfl)
        (by rw [htc]; exact hbr u) (hbr _)
  | str s => rw [resolve_raw_target rfl (by rw [htc]; rfl), hbr]
  | num q => rw [resolve_raw_target rfl (by rw [htc]; rfl), hbr]
  | list xs => rw [resolve_raw_target rfl (by rw [htc]; rfl), hbr]
  | pset xs => rw [resolve_raw_target rfl (by rw [htc]; rfl), hbr]
  | dict ks vs => rw [resolve_raw_target rfl (by rw [htc]; rfl), hbr]
  | none => rw [resolve_raw_target rfl (by rw [htc]; rfl), hbr]
  | obj i => rw [resolve_raw_target rfl (by rw [htc]; rfl), hbr]
  | interpRef => rw [resolve_raw_target rfl (by rw [htc]; rfl), hbr]

/-- `delete <z>` for an absent variable `z` whose token reads both as a
naked string and as an identifier: the statement executes the
interpreter's `delete`, which raises the priority-100 unknown-variable
failure, and the whole Environment is left unchanged (no log append). -/
theorem delete_absent_core (w : World) (env : Env) (z : String)
    (hr : literalReadings z = [Lit.str z, Lit.id z])
    (hshadow : ∀ u, env.target = .wrapper u → u ≠ .interpRef →
      noCallableAttr w u "delete" ∧ noCallableAttr w u ("delete_" ++ z))
    (hv : dictGet env.vars z = Option.none) :
    interpCall w env ("delete " ++ z) (.ok (deleteCands z)) =
      (env, .interpError ⟨"theres no variable called " ++ z, 100⟩) := by
  have hcands : deleteCands z =
      [⟨"delete_" ++ z, Option.none, Option.none, Option.none, Option.none⟩,
       ⟨"delete", some [.str z], Option.none, Option.none, Option.none⟩,
       ⟨"delete", some [.id z], Option.none, Option.none, Option.none⟩] := by
    rw [deleteCands, hr]
    rfl
  -- candidate A: joined method name, unknown everywhere
  have hA := resolve_delete_join_unknown w env z (fun u hu hne => (hshadow u hu hne).2)
  -- candidate B: `delete` with the naked-string argument binds the built-in
  have hB : resolveExpression w env
      ⟨"delete", some [.str z], Option.none, Option.none, Option.none⟩ =
      .ok (.ok ⟨.objMeth .interpRef [⟨"name", Option.none⟩], "delete",
                [.str z], [], Option.none⟩) := by
    have hIself : bindReceiver w env (.wrapper .interpRef)
        ⟨"delete", some [.str z], Option.none, Option.none, Option.none⟩ =
        .ok ⟨.objMeth .interpRef [⟨"name", Option.none⟩], "delete",
             [.str z], [], Option.none⟩ := rfl
    cases htc : env.target with
    | wrapper u =>
        by_cases hu : u = PyVal.interpRef
        · subst hu
          exact resolve_target_ok rfl (by rw [htc]; rfl) (by rw [htc]; exact hIself)
        · have hb1 : bindReceiver w env env.target
              ⟨"delete", some [.str z], Option.none, Option.none, Option.none⟩ =
              .error (unknownMethodErr "delete") := by
            rw [htc]
            unfold bindReceiver
            simp only [resolveRefs, Option.getD, mapME, resolveId]
            exact wrapperBind_noCallable (hshadow u htc hu).1 rfl
          exact resolve_target_err_iself_ok rfl (by rw [htc]; rfl) hb1 hIself
    | str s => rw [resolve_raw_target rfl (by rw [htc]; rfl), hIself]
    | num q => rw [resolve_raw_target rfl (by rw [htc]; rfl), hIself]
    | list xs => rw [resolve_raw_target rfl (by rw [htc]; rfl), hIself]
    | pset xs => rw [resolve_raw_target rfl (by rw [htc]; rfl), hIself]
    | dict ks vs => rw [resolve_raw_target rfl (by rw [htc]; rfl), hIself]
    | none => rw [resolve_raw_target rfl (by rw [htc]; rfl), hIself]
    | obj i => rw [resolve_raw_target rfl (by rw [htc]; rfl), hIself]
    | interpRef => rw [resolve_raw_target rfl (by rw [htc]; rfl), hIself]
  -- candidate C: `delete` with the identifier argument, which cannot resolve
  have hC := resolve_delete_id_absent w env z hv
  have hball : bindAll w env (deleteCands z) =
      .ok [.failure (unknownMethodErr ("delete_" ++ z)).priority
              (unknownMethodErr ("delete_" ++ z)).msg,
           .success ⟨.objMeth .interpRef [⟨"name", Option.none⟩], "delete",
                [.str z], [], Option.none⟩,
           .failure (unknownVariableErr z).priority (unknownVariableErr z).msg] := by
    rw [hcands]
    simp only [bindAll, hA, hB, hC, candOf]
  have hmin : earliestMinKey
      [CandR.failure (unknownMethodErr ("delete_" ++ z)).priority
          (unknownMethodErr ("delete_" ++ z)).msg,
       .success ⟨.objMeth .interpRef [⟨"name", Option.none⟩], "delete",
            [.str z], [], Option.none⟩,
       .failure (unknownVariableErr z).priority (unknownVariableErr z).msg] =
      some (.success ⟨.objMeth .interpRef [⟨"name", Option.none⟩], "delete",
            [.str z], [], Option.none⟩) := by
    simp [earliestMinKey, candKey, unknownMethodErr_priority, unknownVariableErr_priority]
  have hexec : execBuiltin env "delete" [.str z] =
      .exc env ⟨"theres no variable called " ++ z, 100⟩ := by
    unfold execBuiltin
    rw [if_neg (by decide : ¬ (("delete" : String) = "create")), if_pos rfl]
    simp only [hv]
  have hcall : callExpression w env
      ⟨.objMeth .interpRef [⟨"name", Option.none⟩], "delete",
       [.str z], [], Option.none⟩ =
      (env, .interpError ⟨"theres no variable called " ++ z, 100⟩) := by
    unfold callExpression
    rw [show execBound w env ⟨.objMeth .interpRef [⟨"name", Option.none⟩], "delete",
          [.str z], [], Option.none⟩ =
        execBuiltin env "delete" [.str z] from rfl, hexec]
  have hex : interpExec w env (.ok (deleteCands z)) =
      (env, .interpError ⟨"theres no variable called " ++ z, 100⟩) := by
    rw [interpExec_executes_earliestMin hball hmin, hcall]
  unfold interpCall
  rw [hex]

/-- `delete <z>` for an absent variable `z` whose token reads ONLY as an
identifier (a `CNAME` containing an underscore, which `UNQUOTED_STRING`
excludes): there is no naked-string candidate, so no candidate binds; the
reported failure is the priority-20 unknown-method failure of the
joined-method candidate, and the Environment is left unchanged. -/
theorem delete_absent_underscore_core (w : World) (env : Env) (z : String)
    (hr : literalReadings z = [Lit.id z])
    (hshadow : ∀ u, env.target = .wrapper u → u ≠ .interpRef →
      noCallableAttr w u ("delete_" ++ z))
    (hv : dictGet env.vars z = Option.none) :
    interpCall w env ("delete " ++ z) (.ok (deleteCands z)) =
      (env, .noBinding (unknownMethodErr ("delete_" ++ z))) := by
  have hcands : deleteCands z =
      [⟨"delete_" ++ z, Option.none, Option.none, Option.none, Option.none⟩,
       ⟨"delete", some [.id z], Option.none, Option.none, Option.none⟩] := by
    rw [deleteCands, hr]
    rfl
  have hA := resolve_delete_join_unknown w env z hshadow
  have hC := resolve_delete_id_absent w env z hv
  have hball : bindAll w env (deleteCands z) =
      .ok [.failure (unknownMethodErr ("delete_" ++ z)).priority
              (unknownMethodErr ("delete_" ++ z)).msg,
           .failure (unknownVariableErr z).priority (unknownVariableErr z).msg] := by
    rw [hcands]
    simp only [bindAll, hA, hC, candOf]
  have hmin : earliestMinKey
      [CandR.failure (unknownMethodErr ("delete_" ++ z)).priority
          (unknownMethodErr ("delete_" ++ z)).msg,
       .failure (unknownVariableErr z).priority (unknownVariableErr z).msg] =
      some (.failure (unknownMethodErr ("delete_" ++ z)).priority
          (unknownMethodErr ("delete_" ++ z)).msg) := by
    simp [earliestMinKey, candKey, unknownMethodErr_priority, unknownVariableErr_priority]
  have hex := interpExec_reports_earliestMin hball hmin
  unfold interpCall
  rw [hex]

/-- C7 counterexample: `my_var` is a legal variable name (a `CNAME`,
assignable via `as my_var`), but its underscore keeps it out of
`UNQUOTED_STRING`, so it reads only as an identifier.  With `my_var`
absent, `delete my_var` has no binding candidate at all — the reported
failure is the priority-20 UnknownMethod failure for `delete_my_var`, not
the UnknownVariable failure the claim requires (the interpreter's `delete`
never runs). -/
theorem C7_underscore_name_counterexample :
    matchesCNAME "my_var" = true ∧
    matchesUnquoted "my_var" = false ∧
    literalReadings "my_var" = [Lit.id "my_var"] ∧
    dictGet (Env.init []).vars "my_var" = Option.none ∧
    interpCall plainWorld (Env.init []) "delete my_var" (.ok (deleteCands "my_var")) =
      (Env.init [], .noBinding (unknownMethodErr "delete_my_var")) ∧
    ¬ isUnknownVariable (unknownMethodErr "delete_my_var") := by
  refine ⟨by decide, by decide, by decide, rfl, rfl, ?_⟩
  rintro ⟨n, hn⟩
  have hp := congrArg InterpErr.priority hn
  simp [unknownMethodErr, unknownVariableErr] at hp

/-- C7 (amended): `delete z` for an absent variable always fails and leaves
the entire Environment — variables, active target, session log —
unchanged, but the failure kind depends on how the name lexes: a name that
also reads as a naked string reaches the interpreter's `delete` and fails
at execution time with the priority-100 UnknownVariable failure, while a
name reading only as an identifier (it contains an underscore) yields no
viable binding and the priority-20 UnknownMethod failure for the joined
method name is reported instead.  For a present name, the `delete`
operation removes exactly that entry, leaving every other entry in place
(which statement-level candidate wins among the tied successes depends on
the parse forest's unspecified candidate order). -/
theorem C7_delete_behavior (w : World) (env : Env) (z : String)
    (hshadow : ∀ u, env.target = .wrapper u → u ≠ .interpRef →
      noCallableAttr w u "delete" ∧ noCallableAttr w u ("delete_" ++ z)) :
    (literalReadings z = [Lit.str z, Lit.id z] → dictGet env.vars z = Option.none →
      interpCall w env ("delete " ++ z) (.ok (deleteCands z)) =
        (env, .interpError ⟨"theres no variable called " ++ z, 100⟩)) ∧
    (literalReadings z = [Lit.id z] → dictGet env.vars z = Option.none →
      interpCall w env ("delete " ++ z) (.ok (deleteCands z)) =
        (env, .noBinding (unknownMethodErr ("delete_" ++ z)))) ∧
    (∀ v, dictGet env.vars z = some v →
      execBuiltin env "delete" [.str z] =
        .ok { env with vars := dictDel env.vars z } PyVal.none ∧
      ((env.vars.map Prod.fst).Nodup →
        dictGet (dictDel env.vars z) z = Option.none) ∧
      (∀ m, m ≠ z → dictGet (dictDel env.vars z) m = dictGet env.vars m)) := by
  refine ⟨?_, ?_, ?_⟩
  · intro hr hv
    exact delete_absent_core w env z hr hshadow hv
  · intro hr hv
    exact delete_absent_underscore_core w env z hr
      (fun u hu hne => (hshadow u hu hne).2) hv
  · intro v hv
    refine ⟨?_, ?_, ?_⟩
    · unfold execBuiltin
      rw [if_neg (by decide : ¬ (("delete" : String) = "create")), if_pos rfl]
      simp only [hv]
    · intro hnd
      exact dictGet_dictDel_same env.vars z hnd
    · intro m hm
      exact dictGet_dictDel_other env.vars z m hm

/-- C7 witness: `delete z` (plain name) absent fails with the priority-100
unknown-variable failure; `delete my_var` (underscore name) absent reports
the priority-20 unknown-method failure; a present `z` is removed exactly by
the delete built-in. -/
theorem C7_delete_behavior_witness :
    interpCall plainWorld (Env.init []) "delete z" (.ok (deleteCands "z")) =
      (Env.init [], .interpError ⟨"theres no variable called z", 100⟩) ∧
    interpCall plainWorld (Env.init []) "delete my_var" (.ok (deleteCands "my_var")) =
      (Env.init [], .noBinding (unknownMethodErr "delete_my_var")) ∧
    execBuiltin ⟨[("z", .str "v"), ("y", .num 2)], .wrapper .interpRef, [], []⟩
        "delete" [.str "z"] =
      .ok ⟨[("y", .num 2)], .wrapper .interpRef, [], []⟩ PyVal.none := by
  refine ⟨?_, ?_, ?_⟩
  · exact (C7_delete_behavior plainWorld (Env.init []) "z"
      (by intro u hu hne; cases hu; exact absurd rfl hne)).1 rfl rfl
  · exact (C7_delete_behavior plainWorld (Env.init []) "my_var"
      (by intro u hu hne; cases hu; exact absurd rfl hne)).2.1 rfl rfl
  · exact ((C7_delete_behavior plainWorld
      ⟨[("z", .str "v"), ("y", .num 2)], .wrapper .interpRef, [], []⟩ "z"
      (by intro u hu hne; cases hu; exact absurd rfl hne)).2.2 (.str "v") rfl).1

/-! ## C8: session log discipline -/

/-- No candidate of the statement invokes the session-clearing built-in
(the one operation whose execution rewrites the log). -/
def noClear (parsed : Except Unit (List Expr)) : Prop :=
  ∀ exps, parsed = .ok exps → ∀ e ∈ exps, e.method ≠ "clear_session"

theorem interpCall_session (w : World) (env : Env) (stmt : String)
    (parsed : Except Unit (List Expr)) (hnc : noClear parsed) :
    ((interpCall w env stmt parsed).2 = .success ∧
      (interpCall w env stmt parsed).1.session = env.session ++ [stmt]) ∨
    ((interpCall w env stmt parsed).2 ≠ .success ∧
      (interpCall w env stmt parsed).1.session = env.session) := by
  have hs := interpExec_session w env parsed hnc
  cases hie : interpExec w env parsed with
  | mk enve o =>
      rw [hie] at hs
      unfold interpCall
      rw [hie]
      cases o with
      | success => exact Or.inl ⟨rfl, by simp only [List.append_cancel_right_eq]; exact hs⟩
      | noBinding e => exact Or.inr ⟨by simp, hs⟩
      | parseError => exact Or.inr ⟨by simp, hs⟩
      | interpError e => exact Or.inr ⟨by simp, hs⟩
      | genericError m => exact Or.inr ⟨by simp, hs⟩
      | halted => exact Or.inr ⟨by simp, hs⟩
      | empty => exact Or.inr ⟨by simp, hs⟩

/-- C8: a statement is appended to the session log exactly when it executed
with no error; the append is applied strictly after the execution effect
(the post-execution environment gets the extra entry, nothing else
changes); and running a sequence of statements appends exactly the accepted
ones, in input order.  Statements invoking `clear_session`, which rewrites
the log by design, are excluded by hypothesis. -/
theorem C8_log_append_iff_success (w : World) (env : Env) :
    (∀ stmt parsed, noClear parsed →
      (((interpCall w env stmt parsed).2 = .success ∧
        (interpCall w env stmt parsed).1.session = env.session ++ [stmt]) ∨
       ((interpCall w env stmt parsed).2 ≠ .success ∧
        (interpCall w env stmt parsed).1.session = env.session))) ∧
    (∀ stmt parsed, (interpExec w env parsed).2 = .success →
      interpCall w env stmt parsed =
        ({ (interpExec w env parsed).1 with
            session := (interpExec w env parsed).1.session ++ [stmt] }, .success)) ∧
    (∀ stmt parsed, (interpExec w env parsed).2 ≠ .success →
      interpCall w env stmt parsed = interpExec w env parsed) ∧
    (∀ inputs, (∀ sp ∈ inputs, noClear (Prod.snd sp)) →
      (runAll w env inputs).session = env.session ++ accepted w env inputs) := by
  refine ⟨fun stmt parsed hnc => interpCall_session w env stmt parsed hnc, ?_, ?_, ?_⟩
  · intro stmt parsed hsucc
    unfold interpCall
    cases hie : interpExec w env parsed with
    | mk enve o =>
        rw [hie] at hsucc
        cases o <;> simp_all
  · intro stmt parsed hsucc
    unfold interpCall
    cases hie : interpExec w env parsed with
    | mk enve o =>
        rw [hie] at hsucc
        cases o <;> simp_all
  · intro inputs
    induction inputs generalizing env with
    | nil => intro _; simp [runAll, accepted]
    | cons sp rest ih =>
        intro hnc
        obtain ⟨s, p⟩ := sp
        have hstep := interpCall_session w env s p
          (hnc (s, p) (List.mem_cons_self _ _))
        cases hc : interpCall w env s p with
        | mk env' o =>
            rw [hc] at hstep
            simp only [runAll, accepted, hc]
            cases o with
            | halted =>
                simp only
                rcases hstep with ⟨h1, _⟩ | ⟨_, h2⟩
                · cases h1
                · simpa using h2
            | success =>
                simp only
                rcases hstep with ⟨_, h2⟩ | ⟨h1, _⟩
                · rw [ih env' (fun q hq => hnc q (List.mem_cons_of_mem _ hq)), h2]
                  simp
                · exact absurd rfl h1
            | noBinding e =>
                simp only
                rcases hstep with ⟨h1, _⟩ | ⟨_, h2⟩
                · cases h1
                · rw [ih env' (fun q hq => hnc q (List.mem_cons_of_mem _ hq)), h2]
            | parseError =>
                simp only
                rcases hstep with ⟨h1, _⟩ | ⟨_, h2⟩
                · cases h1
                · rw [ih env' (fun q hq => hnc q (List.mem_cons_of_mem _ hq)), h2]
            | interpError e =>
                simp only
                rcases hstep with ⟨h1, _⟩ | ⟨_, h2⟩
                · cases h1
                · rw [ih env' (fun q hq => hnc q (List.mem_cons_of_mem _ hq)), h2]
            | genericError m =>
                simp only
                rcases hstep with ⟨h1, _⟩ | ⟨_, h2⟩
                · cases h1
                · rw [ih env' (fun q hq => hnc q (List.mem_cons_of_mem _ hq)), h2]
            | empty =>
                simp only
                rcases hstep with ⟨h1, _⟩ | ⟨_, h2⟩
                · cases h1
                · rw [ih env' (fun q hq => hnc q (List.mem_cons_of_mem _ hq)), h2]

/-- C8 witness: `drop target` succeeds and is logged; a failing `delete z`
is not; the final log holds exactly the accepted statement, in order. -/
theorem C8_log_append_iff_success_witness :
    (runAll plainWorld (Env.init [])
        [("drop target", .ok dropTargetCands),
         ("delete z", .ok (deleteCands "z"))]).session =
      [] ++ accepted plainWorld (Env.init [])
        [("drop target", .ok dropTargetCands),
         ("delete z", .ok (deleteCands "z"))] := by
  apply (C8_log_append_iff_success plainWorld (Env.init [])).2.2.2
  intro sp hsp
  rcases List.mem_cons.mp hsp with h | h
  · subst h
    intro exps he e hme
    cases he
    fin_cases hme <;> decide
  · rcases List.mem_cons.mp h with h2 | h2
    · subst h2
      intro exps he e hme
      cases he
      fin_cases hme <;> decide
    · cases h2

end FuzzyInterp
